import Mathlib

/-!
Verification development for the weather data acquisition-and-aggregation
core of the sky.io backend (src/lib/weather.js).

The JavaScript source is shallowly embedded: every definition below models
the corresponding source function, field access and truthiness checks
included.  Network calls and timers are replaced by explicit oracles
(functions giving the outcome of each attempt) and explicit time passing;
the mutable module-level cache and inflight maps become explicit state.
-/

namespace Weather

/-- Model of a JavaScript runtime value, abstracted to what the weather
module inspects about cached payloads: identity and truthiness.  Objects
and arrays are represented by an opaque identifier; `vnum` ranges over
integers (NaN, which never arises as a stored payload here, is omitted). -/
inductive JsVal where
  | vnull
  | vundef
  | vbool (b : Bool)
  | vnum (n : Int)
  | vstr (s : String)
  | vobj (id : Nat)
deriving DecidableEq, Repr

/-- JavaScript truthiness: null, undefined, false, 0 and the empty string
are falsy, everything else modeled here is truthy. -/
def JsVal.truthy : JsVal → Bool
  | .vnull => false
  | .vundef => false
  | .vbool b => b
  | .vnum n => n != 0
  | .vstr s => s != ""
  | .vobj _ => true

/-- A cache entry, as stored by `setCache`:
`cache.set(k, {expires: Date.now()+TTL_MS, data: d})`. -/
structure Entry where
  expires : Nat
  data : JsVal
deriving DecidableEq, Repr

/-- The module-level `cache` Map, `key -> {expires, data}`. -/
def CacheMap := String → Option Entry

/-- Configuration read from the environment at module load:
`TOMORROW_API_KEY` (modeled by presence only), `WEATHER_MAX_RETRIES`
(default 3), `WEATHER_BACKOFF_MS` (default 750), `WEATHER_TTL_MS`
(default 300000). -/
structure Cfg where
  apiKey : Bool
  maxRetries : Nat
  backoffMs : Nat
  ttlMs : Nat
deriving DecidableEq, Repr

/-- The default configuration values of the source. -/
def defaultCfg (apiKey : Bool) : Cfg := ⟨apiKey, 3, 750, 300000⟩

/-- Source `getCache`:
`const h = cache.get(k); return h && h.expires > Date.now() ? h.data : null`.
`none` stands for the returned `null`. -/
def getCache (cache : CacheMap) (now : Nat) (k : String) : Option JsVal :=
  match cache k with
  | some h => if now < h.expires then some h.data else none
  | none => none

/-- Truthiness of `fresh = getCache(cacheKey)` as tested by
`if (fresh) return fresh` (a falsy cached payload does not count). -/
def freshTruthy (cache : CacheMap) (now : Nat) (k : String) : Bool :=
  match getCache cache now k with
  | some d => d.truthy
  | none => false

/-- Source `setCache`:
`cache.set(k, {expires: Date.now()+TTL_MS, data: d})`. -/
def setCache (cfg : Cfg) (cache : CacheMap) (now : Nat) (k : String) (d : JsVal) : CacheMap :=
  fun k2 => if k2 = k then some ⟨now + cfg.ttlMs, d⟩ else cache k2

/-- The errors thrown inside `getTomorrowRaw` and its callers.
`http st ra` is an axios error whose `err?.response?.status` is `st`
(`none` = no response, a network-level failure) and whose numeric
`retry-after` response header is `ra` (`none` = header absent or not
numeric). -/
inductive JsError where
  | missingApiKey
  | http (status : Option Nat) (retryAfter : Option Nat)
  | weatherError
  | invalidCoords
deriving DecidableEq, Repr

/-- The `e.status` own-property that the source attaches to the errors it
constructs (`MISSING_API_KEY` gets 500, `INVALID_COORDS` gets 400); axios
errors and `WEATHER_ERROR` have none. -/
def JsError.statusProp : JsError → Option Nat
  | .missingApiKey => some 500
  | .invalidCoords => some 400
  | _ => none

/-- The retry test of the source, applied to `st = err?.response?.status`:
`st === 429 || st >= 500 || !st`.  An absent status (`none`) and the falsy
number 0 both satisfy `!st`; `st >= 500` is false for an absent status. -/
def retryableStatus : Option Nat → Bool
  | none => true
  | some s => s == 429 || decide (500 ≤ s) || s == 0

/-- Oracle entry for one upstream `http.get` invocation: either the
response payload or the thrown axios error's observable data. -/
inductive AttemptOutcome where
  | success (data : JsVal)
  | failure (status : Option Nat) (retryAfter : Option Nat)
deriving DecidableEq, Repr

/-- The error thrown by a failed attempt. -/
def errOf : AttemptOutcome → JsError
  | .success _ => .weatherError
  | .failure st ra => .http st ra

/-- An attempt outcome that is a retryable failure. -/
def isRetryFail : AttemptOutcome → Bool
  | .success _ => false
  | .failure st _ => retryableStatus st

/-- The sleep performed after a retryable failure of attempt `i`:
`Number.isFinite(ra) ? ra * 1000 : BACKOFF_MS * Math.pow(2, i)` in
milliseconds (the numeric retry-after header is in seconds). -/
def sleepOf (cfg : Cfg) (a : AttemptOutcome) (i : Nat) : Nat :=
  match a with
  | .failure _ (some ra) => ra * 1000
  | _ => cfg.backoffMs * 2 ^ i

/-- Returned value or thrown error of a JavaScript async function. -/
inductive FetchResult where
  | ok (v : JsVal)
  | error (e : JsError)
deriving DecidableEq, Repr

/-- Observable outcome of one (single-caller) execution of
`getTomorrowRaw`: the returned value or thrown error, the final cache,
the final clock, the sleeps performed in order, and the number of
upstream `http.get` invocations. -/
structure RunResult where
  result : FetchResult
  cache : CacheMap
  now : Nat
  sleeps : List Nat
  calls : Nat

/-- Value of the `stale` lookup after the loop:
`const stale = cache.get(cacheKey)?.data; if (stale) return stale; throw e`
(note: expiry is ignored here, truthiness is not). -/
def staleResult (cache : CacheMap) (k : String) (e : JsError) : FetchResult :=
  match cache k with
  | some ent => if ent.data.truthy then .ok ent.data else .error e
  | none => .error e

/-- The retry loop of `getTomorrowRaw` (the body of the inflight promise):
`for (let i = 0; i < MAX_RETRIES; i++) { ... }` followed by the stale-cache
check.  `i` is the current loop index, `fuel` the remaining iterations,
`atts j` the outcome of the upstream call made by iteration `j` (the
iteration of index `j` performs at most one call), `lastErr` the `lastErr`
variable.  Upstream calls are modeled as instantaneous; sleeps advance the
clock by their duration. -/
def runAttempts (cfg : Cfg) (key : String) (atts : Nat → AttemptOutcome) :
    Nat → Nat → CacheMap → Nat → Option JsError → RunResult
  | _i, 0, cache, now, lastErr =>
    ⟨staleResult cache key (lastErr.getD .weatherError), cache, now, [], 0⟩
  | i, fuel + 1, cache, now, _lastErr =>
    if cfg.apiKey then
      match atts i with
      | .success d => ⟨.ok d, setCache cfg cache now key d, now, [], 1⟩
      | .failure st ra =>
        if retryableStatus st then
          let dur := match ra with
            | some r => r * 1000
            | none => cfg.backoffMs * 2 ^ i
          let r := runAttempts cfg key atts (i + 1) fuel cache (now + dur) (some (.http st ra))
          ⟨r.result, r.cache, r.now, dur :: r.sleeps, r.calls + 1⟩
        else ⟨.error (.http st ra), cache, now, [], 1⟩
    else
      let dur := cfg.backoffMs * 2 ^ i
      let r := runAttempts cfg key atts (i + 1) fuel cache (now + dur) (some .missingApiKey)
      ⟨r.result, r.cache, r.now, dur :: r.sleeps, r.calls⟩

/-- Source `getTomorrowRaw(path, params, cacheKey)` viewed by a single
caller: the fresh-cache check (`if (fresh) return fresh`) followed by the
retry loop.  The single-flight inflight map is the identity for a lone
caller and is modeled separately by the concurrent step relation below. -/
def getTomorrowRaw (cfg : Cfg) (key : String) (atts : Nat → AttemptOutcome)
    (cache : CacheMap) (now : Nat) : RunResult :=
  match getCache cache now key with
  | some fresh =>
    if fresh.truthy then ⟨.ok fresh, cache, now, [], 0⟩
    else runAttempts cfg key atts 0 cfg.maxRetries cache now none
  | none => runAttempts cfg key atts 0 cfg.maxRetries cache now none

/-- The sleeps performed before the first `k` attempts have all failed
retryably: the numeric retry-after header converted to milliseconds when
present, otherwise `BACKOFF_MS * 2 ^ i` for the 0-based failed attempt `i`. -/
def prefixSleeps (cfg : Cfg) (atts : Nat → AttemptOutcome) (k : Nat) : List Nat :=
  (List.range k).map (fun j => sleepOf cfg (atts j) j)

/-- The pure exponential-backoff sleep sequence for `n` attempts. -/
def backoffSleeps (cfg : Cfg) (n : Nat) : List Nat :=
  (List.range n).map (fun i => cfg.backoffMs * 2 ^ i)

/-- Prepend sleeps and upstream-call counts to a run outcome. -/
def addPrefix (pre : List Nat) (c : Nat) (r : RunResult) : RunResult :=
  ⟨r.result, r.cache, r.now, pre ++ r.sleeps, r.calls + c⟩

theorem addPrefix_nil (r : RunResult) : addPrefix [] 0 r = r := by
  cases r; simp [addPrefix]

/-- Unrolling the retry loop across a block of `m` consecutive retryable
failures starting at loop index `i`: the loop sleeps once per failure and
continues at index `i + m` with `lastErr` set to the last failure. -/
theorem runAttempts_retry_prefix (cfg : Cfg) (key : String) (atts : Nat → AttemptOutcome)
    (hkey : cfg.apiKey = true) :
    ∀ (m i fuel : Nat) (cache : CacheMap) (now : Nat) (le : Option JsError),
      m ≤ fuel → (∀ j, j < m → isRetryFail (atts (i + j)) = true) →
      runAttempts cfg key atts i fuel cache now le =
        addPrefix ((List.range m).map (fun j => sleepOf cfg (atts (i + j)) (i + j))) m
          (runAttempts cfg key atts (i + m) (fuel - m) cache
            (now + ((List.range m).map (fun j => sleepOf cfg (atts (i + j)) (i + j))).sum)
            (if m = 0 then le else some (errOf (atts (i + m - 1))))) := by
  intro m
  induction m with
  | zero =>
    intro i fuel cache now le _ _
    simp [addPrefix_nil]
  | succ m ih =>
    intro i fuel cache now le hm hall
    obtain ⟨f, rfl⟩ : ∃ f, fuel = f + 1 := ⟨fuel - 1, by omega⟩
    have h0 : isRetryFail (atts i) = true := by simpa using hall 0 (by omega)
    cases ha : atts i with
    | success d => rw [ha] at h0; simp [isRetryFail] at h0
    | failure st ra =>
      have hr : retryableStatus st = true := by
        rw [ha] at h0; simpa [isRetryFail] using h0
      have step : runAttempts cfg key atts i (f + 1) cache now le =
          (let r := runAttempts cfg key atts (i + 1) f cache
              (now + sleepOf cfg (atts i) i) (some (.http st ra));
            ⟨r.result, r.cache, r.now, sleepOf cfg (atts i) i :: r.sleeps, r.calls + 1⟩) := by
        cases ra <;> simp only [runAttempts, hkey, if_true, ha, hr, ite_true, sleepOf]
      rw [step]
      have hall' : ∀ j, j < m → isRetryFail (atts (i + 1 + j)) = true := by
        intro j hj
        have := hall (j + 1) (by omega)
        have harith : i + (j + 1) = i + 1 + j := by omega
        rwa [harith] at this
      rw [ih (i + 1) f cache (now + sleepOf cfg (atts i) i) (some (.http st ra))
        (by omega) hall']
      have hrange : (List.range (m + 1)).map (fun j => sleepOf cfg (atts (i + j)) (i + j)) =
          sleepOf cfg (atts i) i ::
            (List.range m).map (fun j => sleepOf cfg (atts (i + 1 + j)) (i + 1 + j)) := by
        rw [List.range_succ_eq_map, List.map_cons, List.map_map]
        have hfun : ((fun j => sleepOf cfg (atts (i + j)) (i + j)) ∘ Nat.succ) =
            (fun j => sleepOf cfg (atts (i + 1 + j)) (i + 1 + j)) := by
          funext j
          simp only [Function.comp_apply]
          have h1 : i + Nat.succ j = i + 1 + j := by omega
          rw [h1]
        rw [hfun]
        simp
      rw [hrange]
      have hle : (if m = 0 then (some (JsError.http st ra) : Option JsError)
          else some (errOf (atts (i + 1 + m - 1)))) =
          (if m + 1 = 0 then le else some (errOf (atts (i + (m + 1) - 1)))) := by
        cases m with
        | zero => simp [errOf, ha]
        | succ m' =>
          have h1 : i + 1 + (m' + 1) - 1 = i + (m' + 1 + 1) - 1 := by omega
          simp [h1]
      rw [hle]
      have hnow : now + sleepOf cfg (atts i) i +
          ((List.range m).map (fun j => sleepOf cfg (atts (i + 1 + j)) (i + 1 + j))).sum =
          now + (sleepOf cfg (atts i) i ::
            (List.range m).map (fun j => sleepOf cfg (atts (i + 1 + j)) (i + 1 + j))).sum := by
        rw [List.sum_cons]; omega
      have hidx : i + 1 + m = i + (m + 1) := by omega
      have hfuel : f - m = f + 1 - (m + 1) := by omega
      rw [hnow, hidx, hfuel]
      simp only [addPrefix, List.cons_append, RunResult.mk.injEq, true_and, and_true]
      omega

theorem prefixSleeps_shift (cfg : Cfg) (atts : Nat → AttemptOutcome) (k : Nat) :
    (List.range k).map (fun j => sleepOf cfg (atts (0 + j)) (0 + j)) = prefixSleeps cfg atts k := by
  unfold prefixSleeps
  congr 1
  funext j
  rw [Nat.zero_add]

/-- With the credential present, if the first `k` attempts fail retryably and
attempt `k` succeeds, the loop returns the payload after caching it at the
post-sleep instant, having made `k + 1` upstream calls. -/
theorem runAttempts_success_at (cfg : Cfg) (key : String) (atts : Nat → AttemptOutcome)
    (cache : CacheMap) (now : Nat) (k : Nat) (d : JsVal)
    (hkey : cfg.apiKey = true) (hk : k < cfg.maxRetries)
    (hpre : ∀ j, j < k → isRetryFail (atts j) = true)
    (ha : atts k = .success d) :
    runAttempts cfg key atts 0 cfg.maxRetries cache now none =
      ⟨.ok d, setCache cfg cache (now + (prefixSleeps cfg atts k).sum) key d,
        now + (prefixSleeps cfg atts k).sum, prefixSleeps cfg atts k, k + 1⟩ := by
  have hmain := runAttempts_retry_prefix cfg key atts hkey k 0 cfg.maxRetries cache now none
    (by omega) (by intro j hj; rw [Nat.zero_add]; exact hpre j hj)
  rw [prefixSleeps_shift] at hmain
  obtain ⟨f, hf⟩ : ∃ f, cfg.maxRetries - k = f + 1 := ⟨cfg.maxRetries - k - 1, by omega⟩
  rw [hmain, hf, Nat.zero_add]
  rw [runAttempts, hkey, if_pos rfl, ha]
  simp only [addPrefix, List.append_nil, RunResult.mk.injEq, true_and, and_true]
  omega

/-- With the credential present, if the first `k` attempts fail retryably and
attempt `k` fails with a non-retryable status, the loop throws that error
immediately, leaving the cache untouched, after `k + 1` upstream calls. -/
theorem runAttempts_fatal_at (cfg : Cfg) (key : String) (atts : Nat → AttemptOutcome)
    (cache : CacheMap) (now : Nat) (k : Nat) (st ra : Option Nat)
    (hkey : cfg.apiKey = true) (hk : k < cfg.maxRetries)
    (hpre : ∀ j, j < k → isRetryFail (atts j) = true)
    (ha : atts k = .failure st ra) (hfatal : retryableStatus st = false) :
    runAttempts cfg key atts 0 cfg.maxRetries cache now none =
      ⟨.error (.http st ra), cache, now + (prefixSleeps cfg atts k).sum,
        prefixSleeps cfg atts k, k + 1⟩ := by
  have hmain := runAttempts_retry_prefix cfg key atts hkey k 0 cfg.maxRetries cache now none
    (by omega) (by intro j hj; rw [Nat.zero_add]; exact hpre j hj)
  rw [prefixSleeps_shift] at hmain
  obtain ⟨f, hf⟩ : ∃ f, cfg.maxRetries - k = f + 1 := ⟨cfg.maxRetries - k - 1, by omega⟩
  rw [hmain, hf, Nat.zero_add]
  rw [runAttempts, hkey, if_pos rfl, ha]
  simp only [hfatal, Bool.false_eq_true, if_false, addPrefix, List.append_nil,
    RunResult.mk.injEq, true_and, and_true]
  omega

/-- With the credential present, if every one of the `MAX_RETRIES` attempts
fails retryably, the loop performs every prescribed sleep, leaves the cache
untouched, and ends in the stale-cache check with `lastErr` being the last
failure. -/
theorem runAttempts_exhaust (cfg : Cfg) (key : String) (atts : Nat → AttemptOutcome)
    (cache : CacheMap) (now : Nat)
    (hkey : cfg.apiKey = true)
    (hall : ∀ j, j < cfg.maxRetries → isRetryFail (atts j) = true) :
    runAttempts cfg key atts 0 cfg.maxRetries cache now none =
      ⟨staleResult cache key (if cfg.maxRetries = 0 then .weatherError
          else errOf (atts (cfg.maxRetries - 1))),
        cache, now + (prefixSleeps cfg atts cfg.maxRetries).sum,
        prefixSleeps cfg atts cfg.maxRetries, cfg.maxRetries⟩ := by
  have hmain := runAttempts_retry_prefix cfg key atts hkey cfg.maxRetries 0 cfg.maxRetries
    cache now none (by omega) (by intro j hj; rw [Nat.zero_add]; exact hall j hj)
  rw [prefixSleeps_shift] at hmain
  rw [hmain, Nat.sub_self]
  rw [runAttempts]
  simp only [addPrefix, List.append_nil, RunResult.mk.injEq, true_and, and_true]
  refine ⟨?_, by omega⟩
  cases hz : cfg.maxRetries with
  | zero => simp
  | succ n => simp [Option.getD, Nat.zero_add]

/-- Without the credential, every iteration throws `MISSING_API_KEY` before
any upstream call; the error has no response status so it is retried with
pure exponential backoff until the attempts are exhausted. -/
theorem runAttempts_no_key (cfg : Cfg) (key : String) (atts : Nat → AttemptOutcome)
    (hkey : cfg.apiKey = false) :
    ∀ (fuel i : Nat) (cache : CacheMap) (now : Nat) (le : Option JsError),
      runAttempts cfg key atts i fuel cache now le =
        ⟨staleResult cache key ((if fuel = 0 then le else some .missingApiKey).getD .weatherError),
          cache, now + ((List.range fuel).map (fun j => cfg.backoffMs * 2 ^ (i + j))).sum,
          (List.range fuel).map (fun j => cfg.backoffMs * 2 ^ (i + j)), 0⟩ := by
  intro fuel
  induction fuel with
  | zero => intro i cache now le; simp [runAttempts]
  | succ f ih =>
    intro i cache now le
    have step : runAttempts cfg key atts i (f + 1) cache now le =
        (let r := runAttempts cfg key atts (i + 1) f cache
            (now + cfg.backoffMs * 2 ^ i) (some .missingApiKey);
          ⟨r.result, r.cache, r.now, cfg.backoffMs * 2 ^ i :: r.sleeps, r.calls⟩) := by
      simp only [runAttempts, hkey, Bool.false_eq_true, if_false]
    rw [step, ih (i + 1) cache (now + cfg.backoffMs * 2 ^ i) (some .missingApiKey)]
    have hrange : (List.range (f + 1)).map (fun j => cfg.backoffMs * 2 ^ (i + j)) =
        cfg.backoffMs * 2 ^ i ::
          (List.range f).map (fun j => cfg.backoffMs * 2 ^ (i + 1 + j)) := by
      rw [List.range_succ_eq_map, List.map_cons, List.map_map]
      have hfun : ((fun j => cfg.backoffMs * 2 ^ (i + j)) ∘ Nat.succ) =
          (fun j => cfg.backoffMs * 2 ^ (i + 1 + j)) := by
        funext j
        simp only [Function.comp_apply]
        have h1 : i + Nat.succ j = i + 1 + j := by omega
        rw [h1]
      rw [hfun]
      simp
    rw [hrange]
    simp only [ite_self, RunResult.mk.injEq, true_and, and_true, List.sum_cons]
    refine ⟨?_, by omega⟩
    cases f <;> simp

/-- The loop never touches the cache unless an attempt succeeds: if no
attempt in range can succeed, the final cache is the initial one
(failures are never cached). -/
theorem runAttempts_cache_of_no_success (cfg : Cfg) (key : String)
    (atts : Nat → AttemptOutcome) :
    ∀ (fuel i : Nat) (cache : CacheMap) (now : Nat) (le : Option JsError),
      (∀ j, i ≤ j → j < i + fuel → ∀ d, atts j ≠ .success d) →
      (runAttempts cfg key atts i fuel cache now le).cache = cache := by
  intro fuel
  induction fuel with
  | zero => intro i cache now le _; simp [runAttempts]
  | succ f ih =>
    intro i cache now le hno
    have hno' : ∀ j, i + 1 ≤ j → j < i + 1 + f → ∀ d, atts j ≠ .success d := by
      intro j h1 h2 d
      exact hno j (by omega) (by omega) d
    cases hkey : cfg.apiKey with
    | false =>
      simp only [runAttempts, hkey, Bool.false_eq_true, if_false]
      exact ih (i + 1) cache (now + cfg.backoffMs * 2 ^ i) (some .missingApiKey) hno'
    | true =>
      cases ha : atts i with
      | success d => exact absurd ha (hno i (by omega) (by omega) d)
      | failure st ra =>
        cases hr : retryableStatus st with
        | true =>
          cases ra with
          | none =>
            simp only [runAttempts, hkey, if_true, ha, hr, ite_true]
            exact ih (i + 1) cache _ _ hno'
          | some r =>
            simp only [runAttempts, hkey, if_true, ha, hr, ite_true]
            exact ih (i + 1) cache _ _ hno'
        | false =>
          simp only [runAttempts, hkey, if_true, ha, hr, Bool.false_eq_true, if_false]

/-- When the fresh-cache check fails (entry absent, expired, or holding a
falsy payload), `getTomorrowRaw` enters the retry loop. -/
theorem getTomorrowRaw_not_fresh (cfg : Cfg) (key : String) (atts : Nat → AttemptOutcome)
    (cache : CacheMap) (now : Nat) (hfresh : freshTruthy cache now key = false) :
    getTomorrowRaw cfg key atts cache now =
      runAttempts cfg key atts 0 cfg.maxRetries cache now none := by
  unfold getTomorrowRaw
  unfold freshTruthy at hfresh
  cases h : getCache cache now key with
  | none => rfl
  | some d =>
    rw [h] at hfresh
    have hf : d.truthy = false := hfresh
    simp [h, hf]

/-! Concrete fixtures used by the counterexamples and witnesses below. -/

/-- An empty cache. -/
def emptyCache : CacheMap := fun _ => none

/-- A cache holding an expired entry with a falsy payload (the number 0). -/
def cacheStale0 : CacheMap := fun k => if k = "k" then some ⟨0, .vnum 0⟩ else none

/-- A cache holding an expired entry with a truthy payload. -/
def cacheStale7 : CacheMap := fun k => if k = "k" then some ⟨0, .vnum 7⟩ else none

/-- A cache holding an unexpired entry with a falsy payload (the number 0). -/
def cacheFresh0 : CacheMap := fun k => if k = "k" then some ⟨100, .vnum 0⟩ else none

/-- A cache holding an unexpired entry with a truthy payload. -/
def cacheFresh7 : CacheMap := fun k => if k = "k" then some ⟨100, .vnum 7⟩ else none

/-- Oracle: every attempt fails with HTTP 503 and no retry-after header. -/
def attsR : Nat → AttemptOutcome := fun _ => .failure (some 503) none

/-- Oracle: every attempt succeeds with an object payload. -/
def atts1 : Nat → AttemptOutcome := fun _ => .success (.vobj 1)

/-- Oracle: the first attempt fails with HTTP status 600 (no retry-after),
later attempts succeed. -/
def atts600 : Nat → AttemptOutcome := fun j =>
  if j = 0 then .failure (some 600) none else .success (.vobj 1)

/-- Oracle: the first attempt fails with HTTP 429 carrying `retry-after: 2`,
later attempts succeed. -/
def attsRA : Nat → AttemptOutcome := fun j =>
  if j = 0 then .failure (some 429) (some 2) else .success (.vobj 1)

/-- Claim C2, counterexample: the claim classifies only 429, 5xx (500–599)
and absent statuses as retryable and calls every other status fatal and
"propagated immediately with no further attempt"; but the source tests
`st === 429 || st >= 500 || !st`, so a response status of 600 is also
retried: after a first attempt failing with status 600 the loop makes a
second upstream call and returns its payload instead of propagating. -/
theorem retry_policy_cex :
    retryableStatus (some 600) = true ∧
    (runAttempts (defaultCfg true) "k" atts600 0 3 emptyCache 0 none).calls = 2 ∧
    (runAttempts (defaultCfg true) "k" atts600 0 3 emptyCache 0 none).result =
      .ok (.vobj 1) := by decide

/-- Claim C2 (amended): with the credential present, a failed attempt whose
response status is 429, at least 500, zero, or absent is retryable, up to
`MAX_RETRIES` attempts in total; any other status is fatal and propagated
immediately with no further attempt (and without touching the cache).
Before each retry the client sleeps exactly the response's numeric
retry-after value times 1000 (seconds to milliseconds) when that header is
present, and otherwise `BACKOFF_MS * 2 ^ i` where `i` is the 0-based index
of the attempt that just failed. -/
theorem retry_policy (cfg : Cfg) (key : String) (atts : Nat → AttemptOutcome)
    (cache : CacheMap) (now : Nat) (k : Nat)
    (hkey : cfg.apiKey = true) (hk : k < cfg.maxRetries)
    (hpre : ∀ j, j < k → isRetryFail (atts j) = true) :
    (∀ st ra, atts k = .failure st ra → retryableStatus st = false →
      runAttempts cfg key atts 0 cfg.maxRetries cache now none =
        ⟨.error (.http st ra), cache, now + (prefixSleeps cfg atts k).sum,
          prefixSleeps cfg atts k, k + 1⟩) ∧
    (∀ d, atts k = .success d →
      runAttempts cfg key atts 0 cfg.maxRetries cache now none =
        ⟨.ok d, setCache cfg cache (now + (prefixSleeps cfg atts k).sum) key d,
          now + (prefixSleeps cfg atts k).sum, prefixSleeps cfg atts k, k + 1⟩) :=
  ⟨fun st ra ha hf => runAttempts_fatal_at cfg key atts cache now k st ra hkey hk hpre ha hf,
   fun d ha => runAttempts_success_at cfg key atts cache now k d hkey hk hpre ha⟩

/-- Witness for `retry_policy`: one 429 failure with `retry-after: 2`
followed by a success yields the payload after a single 2000 ms sleep and
two upstream calls. -/
theorem retry_policy_witness :
    (runAttempts (defaultCfg true) "k" attsRA 0 (defaultCfg true).maxRetries
      emptyCache 0 none).result = .ok (.vobj 1) ∧
    (runAttempts (defaultCfg true) "k" attsRA 0 (defaultCfg true).maxRetries
      emptyCache 0 none).sleeps = [2000] ∧
    (runAttempts (defaultCfg true) "k" attsRA 0 (defaultCfg true).maxRetries
      emptyCache 0 none).calls = 2 := by
  have h := (retry_policy (defaultCfg true) "k" attsRA emptyCache 0 1 rfl (by decide)
    (by decide)).2 (.vobj 1) rfl
  exact ⟨by rw [h], by rw [h]; decide, by rw [h]⟩

/-- Claim C3, counterexample: the claim says that after `MAX_RETRIES`
retryable failures any existing cache entry's payload is returned and no
error raised; but the source tests `if (stale)` on the payload itself, so
an existing (expired) entry whose payload is the falsy number 0 is skipped
and the last error is thrown although a cache entry exists for the key. -/
theorem stale_preference_cex :
    cacheStale0 "k" = some ⟨0, .vnum 0⟩ ∧
    (getTomorrowRaw (defaultCfg true) "k" attsR cacheStale0 0).result =
      .error (.http (some 503) none) := by decide

/-- Claim C3 (amended): if the fresh check fails and all `MAX_RETRIES`
attempts fail with retryable errors, then: when a cache entry exists for
the key whose payload is truthy — even one whose expiry instant has passed
— that stale payload is returned and no error is raised; when no entry
exists, or its payload is falsy, the last error is propagated (or
`WEATHER_ERROR` when `MAX_RETRIES` is 0 and no attempt ever ran). -/
theorem stale_preference (cfg : Cfg) (key : String) (atts : Nat → AttemptOutcome)
    (cache : CacheMap) (now : Nat)
    (hkey : cfg.apiKey = true) (hfresh : freshTruthy cache now key = false)
    (hall : ∀ j, j < cfg.maxRetries → isRetryFail (atts j) = true) :
    getTomorrowRaw cfg key atts cache now =
      ⟨staleResult cache key (if cfg.maxRetries = 0 then .weatherError
          else errOf (atts (cfg.maxRetries - 1))),
        cache, now + (prefixSleeps cfg atts cfg.maxRetries).sum,
        prefixSleeps cfg atts cfg.maxRetries, cfg.maxRetries⟩ := by
  rw [getTomorrowRaw_not_fresh cfg key atts cache now hfresh]
  exact runAttempts_exhaust cfg key atts cache now hkey hall

/-- Witness for `stale_preference`: an expired entry with truthy payload 7
is served after three 503 failures; all three upstream calls were made. -/
theorem stale_preference_witness :
    (getTomorrowRaw (defaultCfg true) "k" attsR cacheStale7 0).result = .ok (.vnum 7) ∧
    (getTomorrowRaw (defaultCfg true) "k" attsR cacheStale7 0).calls = 3 ∧
    (getTomorrowRaw (defaultCfg true) "k" attsR cacheStale7 0).sleeps =
      [750, 1500, 3000] := by
  have h := stale_preference (defaultCfg true) "k" attsR cacheStale7 0 rfl
    (by decide) (by decide)
  exact ⟨by rw [h]; decide, by rw [h]; rfl, by rw [h]; decide⟩

/-- Claim C4, counterexample: the claim says a cache entry with
`now < expiresAt` is returned with no upstream call; but the fresh check is
`if (fresh)` on the payload, so an unexpired entry holding the falsy
payload 0 is ignored: an upstream call is made and its payload returned. -/
theorem cache_discipline_cex :
    getCache cacheFresh0 0 "k" = some (.vnum 0) ∧
    (getTomorrowRaw (defaultCfg true) "k" atts1 cacheFresh0 0).calls = 1 ∧
    (getTomorrowRaw (defaultCfg true) "k" atts1 cacheFresh0 0).result =
      .ok (.vobj 1) := by decide

/-- Claim C4 (amended): (1) when the cache holds an entry for the key with
`now < expiresAt` whose payload is truthy, that payload is returned with no
upstream call, no sleep, and no cache change; (2) on a successful upstream
fetch (after `k` retryable failures) the payload is stored via `setCache`
with expiry `storeTime + TTL`, where `storeTime` is the instant after the
preceding sleeps, and then returned; (3) if no attempt in range succeeds,
the cache is left exactly as it was — only successful payloads populate it. -/
theorem cache_discipline (cfg : Cfg) (key : String) (atts : Nat → AttemptOutcome)
    (cache : CacheMap) (now : Nat) :
    (∀ d, getCache cache now key = some d → d.truthy = true →
      getTomorrowRaw cfg key atts cache now = ⟨.ok d, cache, now, [], 0⟩) ∧
    (∀ k d, cfg.apiKey = true → freshTruthy cache now key = false →
      k < cfg.maxRetries → (∀ j, j < k → isRetryFail (atts j) = true) →
      atts k = .success d →
      getTomorrowRaw cfg key atts cache now =
        ⟨.ok d, setCache cfg cache (now + (prefixSleeps cfg atts k).sum) key d,
          now + (prefixSleeps cfg atts k).sum, prefixSleeps cfg atts k, k + 1⟩) ∧
    ((∀ j, j < cfg.maxRetries → ∀ d, atts j ≠ .success d) →
      (getTomorrowRaw cfg key atts cache now).cache = cache) := by
  refine ⟨?_, ?_, ?_⟩
  · intro d hd htr
    unfold getTomorrowRaw
    rw [hd]
    simp [htr]
  · intro k d hkey hfresh hk hpre ha
    rw [getTomorrowRaw_not_fresh cfg key atts cache now hfresh]
    exact runAttempts_success_at cfg key atts cache now k d hkey hk hpre ha
  · intro hno
    cases hf : freshTruthy cache now key with
    | true =>
      unfold freshTruthy at hf
      cases h : getCache cache now key with
      | none => rw [h] at hf; simp at hf
      | some d =>
        rw [h] at hf
        have htr : d.truthy = true := hf
        unfold getTomorrowRaw
        rw [h]
        simp [htr]
    | false =>
      rw [getTomorrowRaw_not_fresh cfg key atts cache now hf]
      exact runAttempts_cache_of_no_success cfg key atts cfg.maxRetries 0 cache now none
        (by intro j h1 h2 d; exact hno j (by omega) d)

/-- Witness for `cache_discipline`: a truthy fresh entry is returned with
zero upstream calls. -/
theorem cache_discipline_witness :
    (getTomorrowRaw (defaultCfg true) "k" atts1 cacheFresh7 0).result = .ok (.vnum 7) ∧
    (getTomorrowRaw (defaultCfg true) "k" atts1 cacheFresh7 0).calls = 0 := by
  have h := (cache_discipline (defaultCfg true) "k" atts1 cacheFresh7 0).1 (.vnum 7)
    (by decide) (by decide)
  exact ⟨by rw [h], by rw [h]⟩

/-- Claim C5, counterexample: the claim says a missing `API_KEY` fails
immediately with no retry and no backoff sleep; but the thrown
`MISSING_API_KEY` error has no `response.status`, so the loop classifies
it retryable: with the default configuration it sleeps 750, 1500 and
3000 ms (one backoff per attempt) before propagating.  Only the "no
upstream call" part of the claim holds (`calls = 0`). -/
theorem missing_key_cex :
    (getTomorrowRaw (defaultCfg false) "k" attsR emptyCache 0).sleeps =
      [750, 1500, 3000] ∧
    (getTomorrowRaw (defaultCfg false) "k" attsR emptyCache 0).result =
      .error .missingApiKey ∧
    (getTomorrowRaw (defaultCfg false) "k" attsR emptyCache 0).calls = 0 := by decide

/-- Claim C5 (amended): when `API_KEY` is absent (and the fresh check
fails), no upstream call is ever made, but the `MISSING_API_KEY` error
(carrying `e.status = 500` yet no response status) is treated as retryable:
the loop runs all `MAX_RETRIES` iterations, sleeping `BACKOFF_MS * 2 ^ i`
after each, then returns a truthy stale payload if one exists and otherwise
propagates `MISSING_API_KEY`. -/
theorem missing_key_behavior (cfg : Cfg) (key : String) (atts : Nat → AttemptOutcome)
    (cache : CacheMap) (now : Nat)
    (hkey : cfg.apiKey = false) (hfresh : freshTruthy cache now key = false) :
    getTomorrowRaw cfg key atts cache now =
      ⟨staleResult cache key (if cfg.maxRetries = 0 then .weatherError else .missingApiKey),
        cache, now + (backoffSleeps cfg cfg.maxRetries).sum,
        backoffSleeps cfg cfg.maxRetries, 0⟩ := by
  rw [getTomorrowRaw_not_fresh cfg key atts cache now hfresh]
  rw [runAttempts_no_key cfg key atts hkey cfg.maxRetries 0 cache now none]
  have hb : (List.range cfg.maxRetries).map (fun j => cfg.backoffMs * 2 ^ (0 + j)) =
      backoffSleeps cfg cfg.maxRetries := by
    unfold backoffSleeps
    congr 1
    funext j
    rw [Nat.zero_add]
  rw [hb]
  have he : ((if cfg.maxRetries = 0 then (none : Option JsError) else some .missingApiKey).getD
      .weatherError) = (if cfg.maxRetries = 0 then .weatherError else .missingApiKey) := by
    cases hz : cfg.maxRetries <;> simp
  rw [he]

/-- Witness for `missing_key_behavior`: with no credential and a truthy
expired entry, the stale payload is served after zero upstream calls and
the three default backoff sleeps. -/
theorem missing_key_witness :
    (getTomorrowRaw (defaultCfg false) "k" attsR cacheStale7 0).result = .ok (.vnum 7) ∧
    (getTomorrowRaw (defaultCfg false) "k" attsR cacheStale7 0).calls = 0 ∧
    (getTomorrowRaw (defaultCfg false) "k" attsR cacheStale7 0).sleeps =
      [750, 1500, 3000] := by
  have h := missing_key_behavior (defaultCfg false) "k" attsR cacheStale7 0 rfl (by decide)
  exact ⟨by rw [h]; decide, by rw [h], by rw [h]; decide⟩

/-! ## Window aggregator (`summarizeForecastWindow`)

JavaScript numbers are modeled by `ℚ` (the aggregator performs only
comparisons, sums and one fixed-point rounding). -/

/-- JavaScript string `<=`: lexicographic comparison by code unit
(identical to code-point comparison on the characters appearing in ISO
timestamps). -/
def jsStrLeAux : List Char → List Char → Bool
  | [], _ => true
  | _ :: _, [] => false
  | a :: as, b :: bs =>
    if a.toNat < b.toNat then true
    else if b.toNat < a.toNat then false
    else jsStrLeAux as bs

/-- JavaScript `a <= b` on strings. -/
def jsStrLe (a b : String) : Bool := jsStrLeAux a.data b.data

/-- The hourly-row value fields read by the aggregator; `none` models both
`null` and an absent field (the source tests `!= null`, which accepts
both). -/
structure HVals where
  temperature : Option ℚ
  windSpeed : Option ℚ
  windGust : Option ℚ
  uvIndex : Option ℚ
  visibility : Option ℚ
  precipitationProbability : Option ℚ
  rainAccumulation : Option ℚ
  weatherCode : Option Int
deriving DecidableEq, Repr

/-- The `{}` fallback of `h.values || h.value || {}`. -/
def emptyHVals : HVals := ⟨none, none, none, none, none, none, none, none⟩

/-- One hourly row of a (Tomorrow-shaped) forecast payload. -/
structure HRow where
  time : String
  values : Option HVals
  value : Option HVals
deriving DecidableEq, Repr

/-- Source `h.values || h.value || {}` (an object is always truthy). -/
def rowVals (h : HRow) : HVals :=
  match h.values with
  | some v => v
  | none =>
    match h.value with
    | some v => v
    | none => emptyHVals

/-- The `timelines` wrapper of a raw forecast payload. -/
structure Timelines where
  hourly : Option (List HRow)
deriving DecidableEq, Repr

/-- The `data` wrapper of a raw forecast payload. -/
structure RawData where
  timelines : Option Timelines
deriving DecidableEq, Repr

/-- A raw value handed to `summarizeForecastWindow`; the whole argument is
`Option RawForecast` with `none` for `null`/`undefined`. -/
structure RawForecast where
  timelines : Option Timelines
  data : Option RawData
deriving DecidableEq, Repr

/-- The chain `raw?.timelines?.hourly`. -/
def primaryHourly (r : RawForecast) : Option (List HRow) :=
  r.timelines.bind Timelines.hourly

/-- The chain `raw?.data?.timelines?.hourly`. -/
def secondaryHourly (r : RawForecast) : Option (List HRow) :=
  (r.data.bind RawData.timelines).bind Timelines.hourly

/-- Source `raw?.timelines?.hourly || raw?.data?.timelines?.hourly || []`
(an array, even empty, is truthy, so a present empty `timelines.hourly`
shadows `data.timelines.hourly`). -/
def rawHourly : Option RawForecast → List HRow
  | none => []
  | some r =>
    match primaryHourly r with
    | some l => l
    | none => (secondaryHourly r).getD []

/-- Source `hourly.filter(h => h.time >= startISO && h.time <= endISO)`. -/
def selRows (raw : Option RawForecast) (startISO endISO : String) : List HRow :=
  (rawHourly raw).filter (fun h => jsStrLe startISO h.time && jsStrLe h.time endISO)

/-- Accumulator of the aggregation loop.  The source seeds `tempMin`,
`tempMax` and `visMin_km` with `±Infinity` and maps an untouched seed to
`null` at the end; `none` models the untouched seed. -/
structure AggSt where
  tempMin : Option ℚ
  tempMax : Option ℚ
  windMax : ℚ
  gustMax : ℚ
  uvMax : ℚ
  visMin : Option ℚ
  precipProbMax : ℚ
  precipTotal : ℚ
  codes : List Int
deriving DecidableEq, Repr

/-- The accumulator before the loop: `±Infinity` seeds (modeled `none`),
zeros, and an empty code set. -/
def initAgg : AggSt := ⟨none, none, 0, 0, 0, none, 0, 0, []⟩

/-- `Math.min` folded into an `Infinity`-seeded accumulator. -/
def omin (acc : Option ℚ) (x : ℚ) : Option ℚ :=
  some (match acc with | some m => min m x | none => x)

/-- `Math.max` folded into a `-Infinity`-seeded accumulator. -/
def omax (acc : Option ℚ) (x : ℚ) : Option ℚ :=
  some (match acc with | some m => max m x | none => x)

/-- `Set.add` followed by `Array.from`: insertion-ordered de-duplication. -/
def pushCode (codes : List Int) (c : Int) : List Int :=
  if c ∈ codes then codes else codes ++ [c]

/-- One iteration of the aggregation loop of the source (each field is
updated only when the corresponding value is `!= null`). -/
def stepAgg (a : AggSt) (v : HVals) : AggSt :=
  { tempMin := match v.temperature with
      | some t => omin a.tempMin t
      | none => a.tempMin
    tempMax := match v.temperature with
      | some t => omax a.tempMax t
      | none => a.tempMax
    windMax := match v.windSpeed with
      | some w => max a.windMax w
      | none => a.windMax
    gustMax := match v.windGust with
      | some w => max a.gustMax w
      | none => a.gustMax
    uvMax := match v.uvIndex with
      | some u => max a.uvMax u
      | none => a.uvMax
    visMin := match v.visibility with
      | some x => omin a.visMin x
      | none => a.visMin
    precipProbMax := match v.precipitationProbability with
      | some p => max a.precipProbMax p
      | none => a.precipProbMax
    precipTotal := match v.rainAccumulation with
      | some p => a.precipTotal + p
      | none => a.precipTotal
    codes := match v.weatherCode with
      | some c => pushCode a.codes c
      | none => a.codes }

/-- The loop `for (const {v} of sel) ...` over the selected rows. -/
def aggOf (sel : List HRow) : AggSt :=
  sel.foldl (fun a h => stepAgg a (rowVals h)) initAgg

/-- `Number.prototype.toFixed(1)` followed by unary `+`: rounding to one
decimal place, half away from zero on the magnitude. -/
def toFixed1 (q : ℚ) : ℚ :=
  if q < 0 then -(((Int.floor (-q * 10 + 1 / 2) : Int) : ℚ) / 10)
  else ((Int.floor (q * 10 + 1 / 2) : Int) : ℚ) / 10

/-- Source `agg.windMax_ms ? +(agg.windMax_ms * 3.6).toFixed(1) : null`
(0 is falsy, any other number truthy). -/
def kmhOf (ms : ℚ) : Option ℚ :=
  if ms = 0 then none else some (toFixed1 (ms * (3.6 : ℚ)))

/-- The non-sentinel summary returned when at least one row is selected. -/
structure SummaryFull where
  hours : Nat
  tempMin : Option ℚ
  tempMax : Option ℚ
  windMax_ms : ℚ
  gustMax_ms : ℚ
  uvMax : ℚ
  visMin_km : Option ℚ
  precipProbMax : ℚ
  precipMmTotal : ℚ
  codes : List Int
  windMax_kmh : Option ℚ
  gustMax_kmh : Option ℚ
deriving DecidableEq, Repr

/-- Result of `summarizeForecastWindow`: either the `{ hours: 0 }` sentinel
(and nothing else), or a full summary. -/
inductive Summary where
  | noHours
  | full (s : SummaryFull)
deriving DecidableEq, Repr

/-- Source `summarizeForecastWindow(raw, startISO, endISO)`. -/
def summarizeForecastWindow (raw : Option RawForecast) (startISO endISO : String) : Summary :=
  if (rawHourly raw).isEmpty then .noHours
  else if (selRows raw startISO endISO).isEmpty then .noHours
  else
    let agg := aggOf (selRows raw startISO endISO)
    .full ⟨(selRows raw startISO endISO).length, agg.tempMin, agg.tempMax,
      agg.windMax, agg.gustMax, agg.uvMax, agg.visMin, agg.precipProbMax,
      agg.precipTotal, agg.codes, kmhOf agg.windMax, kmhOf agg.gustMax⟩

/-- Minimum over a list of present values, `none` when there are none
(the claim's "min over non-null values, null if none present"). -/
def specMin (l : List ℚ) : Option ℚ := l.foldl omin none

/-- Maximum over a list of present values, `none` when there are none. -/
def specMax (l : List ℚ) : Option ℚ := l.foldl omax none

/-- The claim's "maxima over non-null values defaulting to 0": the true
maximum of the present values when any exist, otherwise 0. -/
def claimMax0 (l : List ℚ) : ℚ := (specMax l).getD 0

/-- What the source computes: the maximum of 0 together with the present
values (a 0-seeded fold). -/
def specMax0 (l : List ℚ) : ℚ := l.foldl max 0

/-- Sum over the present values. -/
def specSum (l : List ℚ) : ℚ := l.foldl (· + ·) 0

/-- Insertion-ordered de-duplicated collection of the present codes. -/
def specCodes (l : List Int) : List Int := l.foldl pushCode []

/-- The claim's description of the aggregation, parameterized by the
max-with-default-0 reduction used for wind, gust, uv and precipitation
probability. -/
def summarizeWith (maxver : List ℚ → ℚ) (raw : Option RawForecast)
    (startISO endISO : String) : Summary :=
  if (rawHourly raw).isEmpty then .noHours
  else if (selRows raw startISO endISO).isEmpty then .noHours
  else
    let vs := (selRows raw startISO endISO).map rowVals
    .full ⟨(selRows raw startISO endISO).length,
      specMin (vs.filterMap HVals.temperature),
      specMax (vs.filterMap HVals.temperature),
      maxver (vs.filterMap HVals.windSpeed),
      maxver (vs.filterMap HVals.windGust),
      maxver (vs.filterMap HVals.uvIndex),
      specMin (vs.filterMap HVals.visibility),
      maxver (vs.filterMap HVals.precipitationProbability),
      specSum (vs.filterMap HVals.rainAccumulation),
      specCodes (vs.filterMap HVals.weatherCode),
      kmhOf (maxver (vs.filterMap HVals.windSpeed)),
      kmhOf (maxver (vs.filterMap HVals.windGust))⟩

/-- The aggregation exactly as claim C6 words it ("maxima over non-null
values defaulting to 0"). -/
def claimSummarize : Option RawForecast → String → String → Summary :=
  summarizeWith claimMax0

/-- The aggregation with the amended max reduction (max of 0 and the
values). -/
def amendedSummarize : Option RawForecast → String → String → Summary :=
  summarizeWith specMax0

/-- A generic description of one field of the aggregation loop: if a
projection of `stepAgg` updates by `u` on the extracted value, the
projection of the whole fold is a fold of `u` over the extracted values. -/
theorem foldl_stepAgg_proj {α β : Type} (pr : AggSt → α) (g : HVals → Option β)
    (u : α → β → α)
    (hstep : ∀ a v, pr (stepAgg a v) = match g v with
      | some x => u (pr a) x
      | none => pr a) :
    ∀ (L : List HVals) (a : AggSt),
      pr (L.foldl stepAgg a) = (L.filterMap g).foldl u (pr a) := by
  intro L
  induction L with
  | nil => intro a; rfl
  | cons v L ih =>
    intro a
    rw [List.foldl_cons, ih, hstep]
    cases hg : g v <;> simp [List.filterMap_cons, hg]

/-- A single in-range hourly row whose only present value is a (nonsense,
but type-correct) negative wind speed. -/
def rowNeg : HRow := ⟨"b", some ⟨none, some (-1), none, none, none, none, none, none⟩, none⟩

/-- A forecast payload containing only `rowNeg`. -/
def rawNeg : Option RawForecast := some ⟨some ⟨some [rowNeg]⟩, none⟩

/-- Claim C6, counterexample: the claim computes `windMax_ms` as the
maximum "over non-null values defaulting to 0", which on the single present
value -1 is -1; the source seeds its `Math.max` fold with 0, producing 0.
So `summarizeForecastWindow` differs from the claim's aggregation on this
input. -/
theorem summarize_claim_cex :
    summarizeForecastWindow rawNeg "a" "z" ≠ claimSummarize rawNeg "a" "z" ∧
    specMax0 [(-1 : ℚ)] = 0 ∧ claimMax0 [(-1 : ℚ)] = -1 ∧
    summarizeForecastWindow rawNeg "a" "z" =
      .full ⟨1, none, none, 0, 0, 0, none, 0, 0, [], none, none⟩ := by decide

/-- Claim C6 (amended): for every raw payload and window,
`summarizeForecastWindow` equals the claim's described aggregation over the
rows whose time lies in `[startISO, endISO]` (inclusive string comparison):
`{ hours: 0 }` when none remain, otherwise counts, min/max over non-null
temperatures (null if none), min over non-null visibilities (null if none),
sum of non-null precipitation, de-duplicated codes, and km/h derivations
present exactly for non-zero m/s maxima — with the max-based fields
computed as the maximum of 0 together with the non-null values (the
source's 0-seeded fold), rather than the claim's "maxima over non-null
values defaulting to 0". -/
theorem summarize_spec (raw : Option RawForecast) (s e : String) :
    summarizeForecastWindow raw s e = amendedSummarize raw s e := by
  unfold summarizeForecastWindow amendedSummarize summarizeWith
  by_cases h1 : (rawHourly raw).isEmpty
  · simp [h1]
  · by_cases h2 : (selRows raw s e).isEmpty
    · simp [h1, h2]
    · simp only [h1, h2, Bool.false_eq_true, if_false]
      have hwind : (aggOf (selRows raw s e)).windMax =
          specMax0 (((selRows raw s e).map rowVals).filterMap HVals.windSpeed) := by
        unfold aggOf
        rw [← List.foldl_map rowVals stepAgg]
        exact foldl_stepAgg_proj AggSt.windMax HVals.windSpeed max
          (by intro a v; cases hv : v.windSpeed <;> simp [stepAgg, hv])
          ((selRows raw s e).map rowVals) initAgg
      have hgust : (aggOf (selRows raw s e)).gustMax =
          specMax0 (((selRows raw s e).map rowVals).filterMap HVals.windGust) := by
        unfold aggOf
        rw [← List.foldl_map rowVals stepAgg]
        exact foldl_stepAgg_proj AggSt.gustMax HVals.windGust max
          (by intro a v; cases hv : v.windGust <;> simp [stepAgg, hv])
          ((selRows raw s e).map rowVals) initAgg
      have htmin : (aggOf (selRows raw s e)).tempMin =
          specMin (((selRows raw s e).map rowVals).filterMap HVals.temperature) := by
        unfold aggOf
        rw [← List.foldl_map rowVals stepAgg]
        exact foldl_stepAgg_proj AggSt.tempMin HVals.temperature omin
          (by intro a v; cases hv : v.temperature <;> simp [stepAgg, hv])
          ((selRows raw s e).map rowVals) initAgg
      have htmax : (aggOf (selRows raw s e)).tempMax =
          specMax (((selRows raw s e).map rowVals).filterMap HVals.temperature) := by
        unfold aggOf
        rw [← List.foldl_map rowVals stepAgg]
        exact foldl_stepAgg_proj AggSt.tempMax HVals.temperature omax
          (by intro a v; cases hv : v.temperature <;> simp [stepAgg, hv])
          ((selRows raw s e).map rowVals) initAgg
      have huv : (aggOf (selRows raw s e)).uvMax =
          specMax0 (((selRows raw s e).map rowVals).filterMap HVals.uvIndex) := by
        unfold aggOf
        rw [← List.foldl_map rowVals stepAgg]
        exact foldl_stepAgg_proj AggSt.uvMax HVals.uvIndex max
          (by intro a v; cases hv : v.uvIndex <;> simp [stepAgg, hv])
          ((selRows raw s e).map rowVals) initAgg
      have hvis : (aggOf (selRows raw s e)).visMin =
          specMin (((selRows raw s e).map rowVals).filterMap HVals.visibility) := by
        unfold aggOf
        rw [← List.foldl_map rowVals stepAgg]
        exact foldl_stepAgg_proj AggSt.visMin HVals.visibility omin
          (by intro a v; cases hv : v.visibility <;> simp [stepAgg, hv])
          ((selRows raw s e).map rowVals) initAgg
      have hprob : (aggOf (selRows raw s e)).precipProbMax =
          specMax0 (((selRows raw s e).map rowVals).filterMap HVals.precipitationProbability) := by
        unfold aggOf
        rw [← List.foldl_map rowVals stepAgg]
        exact foldl_stepAgg_proj AggSt.precipProbMax HVals.precipitationProbability max
          (by intro a v; cases hv : v.precipitationProbability <;> simp [stepAgg, hv]) ((selRows raw s e).map rowVals) initAgg
      have hsum : (aggOf (selRows raw s e)).precipTotal =
          specSum (((selRows raw s e).map rowVals).filterMap HVals.rainAccumulation) := by
        unfold aggOf
        rw [← List.foldl_map rowVals stepAgg]
        exact foldl_stepAgg_proj AggSt.precipTotal HVals.rainAccumulation (· + ·)
          (by intro a v; cases hv : v.rainAccumulation <;> simp [stepAgg, hv]) ((selRows raw s e).map rowVals) initAgg
      have hcodes : (aggOf (selRows raw s e)).codes =
          specCodes (((selRows raw s e).map rowVals).filterMap HVals.weatherCode) := by
        unfold aggOf
        rw [← List.foldl_map rowVals stepAgg]
        exact foldl_stepAgg_proj AggSt.codes HVals.weatherCode pushCode
          (by intro a v; cases hv : v.weatherCode <;> simp [stepAgg, hv])
          ((selRows raw s e).map rowVals) initAgg
      simp only [Summary.full.injEq, SummaryFull.mk.injEq]
      exact ⟨trivial, htmin, htmax, hwind, hgust, huv, hvis, hprob, hsum, hcodes,
        by rw [hwind], by rw [hgust]⟩

/-! A `timelines.hourly` member need not hold an array: the source selects
the slot value by `||` truthiness, tests `hourly.length`, and then calls
`hourly.filter`, which throws a TypeError when the selected value is not
an array.  The generalized raw shapes below represent such slot values. -/

/-- A JS value sitting at a `timelines.hourly` slot: an array of rows, or
any non-array value (`other .vundef` doubles as an absent property). -/
inductive HourlySlot where
  | arr (l : List HRow)
  | other (v : JsVal)
deriving DecidableEq, Repr

/-- Truthiness of the slot value (an array is an object, hence truthy,
even when empty). -/
def HourlySlot.truthy : HourlySlot → Bool
  | .arr _ => true
  | .other v => v.truthy

/-- Whether the slot value is an array — the only modeled value with a
callable `.filter`. -/
def HourlySlot.isArr : HourlySlot → Bool
  | .arr _ => true
  | .other _ => false

/-- The JS `hourly.length`: array length, string length, and `undefined`
(`none`) for the other modeled values (numbers, booleans, null, undefined,
and plain objects carrying no `length` property). -/
def HourlySlot.len : HourlySlot → Option Nat
  | .arr l => some l.length
  | .other (.vstr s) => some s.length
  | .other _ => none

/-- Truthiness of `hourly.length`, as tested by `if (!hourly.length)`
(an undefined length is falsy). -/
def HourlySlot.lenTruthy (h : HourlySlot) : Bool :=
  match h.len with
  | some n => n != 0
  | none => false

/-- `timelines` with an arbitrarily-valued `hourly` slot. -/
structure TimelinesG where
  hourly : HourlySlot
deriving DecidableEq, Repr

/-- The `data` wrapper over the generalized `timelines`. -/
structure RawDataG where
  timelines : Option TimelinesG
deriving DecidableEq, Repr

/-- A raw forecast value whose `hourly` slots may hold any value
(`none` still models an absent/null member along the optional chains). -/
structure RawForecastG where
  timelines : Option TimelinesG
  data : Option RawDataG
deriving DecidableEq, Repr

/-- The chain `x?.hourly` (an absent `timelines` yields `undefined`). -/
def chainHourly : Option TimelinesG → HourlySlot
  | none => .other .vundef
  | some tl => tl.hourly

/-- Source `raw?.timelines?.hourly || raw?.data?.timelines?.hourly || []`,
with `||` truthiness over arbitrary slot values (the optional chains are
`Option.bind`, an absent link yielding `undefined`). -/
def hourlyValue (raw : Option RawForecastG) : HourlySlot :=
  let h1 := chainHourly (raw.bind RawForecastG.timelines)
  if h1.truthy then h1
  else
    let h2 := chainHourly ((raw.bind RawForecastG.data).bind RawDataG.timelines)
    if h2.truthy then h2 else .arr []

/-- Result of `summarizeForecastWindow` including the throwing case: the
source raises a TypeError at `hourly.filter` when the selected slot value
survives the length check but is not an array. -/
inductive SummaryOutcome where
  | thrown
  | value (s : Summary)
deriving DecidableEq, Repr

/-- Source `summarizeForecastWindow` over arbitrary hourly slot values:
`if (!hourly.length) return { hours: 0 }`, then `hourly.filter(...)` —
on an array this proceeds exactly as the array path already embodied by
`summarizeForecastWindow`, on anything else it throws. -/
def summarizeForecastWindowG (raw : Option RawForecastG) (startISO endISO : String) :
    SummaryOutcome :=
  let hourly := hourlyValue raw
  if hourly.lenTruthy = false then .value .noHours
  else
    match hourly with
    | .arr l =>
      .value (summarizeForecastWindow (some ⟨some ⟨some l⟩, none⟩) startISO endISO)
    | .other _ => .thrown

/-- A raw value whose `timelines.hourly` is the nonempty string "ab"
(truthy, with truthy `.length`, but no `.filter`). -/
def rawStrHourly : Option RawForecastG := some ⟨some ⟨.other (.vstr "ab")⟩, none⟩

/-- Claim C10, counterexample: `raw = {timelines: {hourly: "ab"}}` has no
`timelines.hourly` (or `data.timelines.hourly`) array, yet the source does
not return `{ hours: 0 }`: the string is truthy, its `.length` (2) passes
the check, and `hourly.filter` throws a TypeError — so the claimed
totality on malformed input fails. -/
theorem summarize_nonarray_cex :
    (hourlyValue rawStrHourly).isArr = false ∧
    summarizeForecastWindowG rawStrHourly "a" "z" = .thrown := by decide

/-- A raw value that has no `timelines.hourly` (or `data.timelines.hourly`)
array: `null`/`undefined`, or one with no array at either slot. -/
def NoHourlyArr : Option RawForecastG → Prop
  | none => True
  | some r => (chainHourly r.timelines).isArr = false ∧
      (chainHourly (r.data.bind RawDataG.timelines)).isArr = false

/-- With no array at either slot, the `||` chain selects either its `[]`
default or a truthy non-array slot value. -/
theorem hourlyValue_noArr (raw : Option RawForecastG) (h : NoHourlyArr raw) :
    hourlyValue raw = .arr [] ∨
      ∃ v, hourlyValue raw = .other v ∧ JsVal.truthy v = true := by
  cases raw with
  | none => left; rfl
  | some r =>
    obtain ⟨h1a, h2a⟩ := h
    unfold hourlyValue
    have e1 : (some r : Option RawForecastG).bind RawForecastG.timelines = r.timelines := rfl
    have e2 : ((some r : Option RawForecastG).bind RawForecastG.data).bind
        RawDataG.timelines = r.data.bind RawDataG.timelines := rfl
    rw [e1, e2]
    cases hh1 : chainHourly r.timelines with
    | arr l =>
      rw [hh1] at h1a
      simp [HourlySlot.isArr] at h1a
    | other v1 =>
      by_cases ht1 : v1.truthy = true
      · right
        have htr : (HourlySlot.other v1).truthy = true := ht1
        refine ⟨v1, ?_, ht1⟩
        simp [htr]
      · have hf1 : (HourlySlot.other v1).truthy = false := Bool.eq_false_iff.mpr ht1
        simp only [hf1, Bool.false_eq_true, if_false]
        cases hh2 : chainHourly (r.data.bind RawDataG.timelines) with
        | arr l2 =>
          rw [hh2] at h2a
          simp [HourlySlot.isArr] at h2a
        | other v2 =>
          by_cases ht2 : v2.truthy = true
          · right
            have htr2 : (HourlySlot.other v2).truthy = true := ht2
            refine ⟨v2, ?_, ht2⟩
            simp [htr2]
          · left
            have hf2 : (HourlySlot.other v2).truthy = false := Bool.eq_false_iff.mpr ht2
            simp [hf2]

/-- Claim C10 (amended): applied to `null`, `undefined`, or any raw value
with no `timelines.hourly` (or `data.timelines.hourly`) array,
`summarizeForecastWindow` returns the `{ hours: 0 }` sentinel — unless the
`||` chain selects a truthy non-array slot value whose `.length` is also
truthy (a nonempty string), in which case the source throws a TypeError at
`hourly.filter` instead of returning; it is therefore not total on
malformed input. -/
theorem summarize_nonarray (raw : Option RawForecastG) (s e : String)
    (h : NoHourlyArr raw) :
    summarizeForecastWindowG raw s e =
      (if (hourlyValue raw).lenTruthy then .thrown else .value .noHours) := by
  rcases hourlyValue_noArr raw h with hv | ⟨v, hv, _⟩
  · unfold summarizeForecastWindowG
    rw [hv]
    rfl
  · unfold summarizeForecastWindowG
    rw [hv]
    cases hlt : (HourlySlot.other v).lenTruthy with
    | false => simp [hlt]
    | true => simp [hlt]

/-- A raw value whose `timelines.hourly` is the number 5 (truthy, but with
an undefined `.length`) and whose `data` member is absent. -/
def rawNumHourly : Option RawForecastG := some ⟨some ⟨.other (.vnum 5)⟩, none⟩

/-- Witness for `summarize_nonarray`: the number 5 at `timelines.hourly`
is truthy but has undefined `.length`, so the sentinel is returned and
nothing is thrown. -/
theorem summarize_nonarray_witness :
    NoHourlyArr rawNumHourly ∧
    summarizeForecastWindowG rawNumHourly "a" "z" = .value .noHours := by
  have hno : NoHourlyArr rawNumHourly := ⟨rfl, rfl⟩
  refine ⟨hno, ?_⟩
  have h := summarize_nonarray rawNumHourly "a" "z" hno
  rw [h]
  decide

/-! ## Public API entry points (`getRealtime`, `getForecast`) -/

/-- A JavaScript value passed as a coordinate, abstracted by its numeric
conversion: `num q` is any value with `Number(v)` the finite number `q`,
`nonNum` any value with `Number(v)` NaN or infinite. -/
inductive CoordInput where
  | num (q : ℚ)
  | nonNum
deriving DecidableEq, Repr

/-- Source `isNum`: `Number.isFinite(Number(v))`. -/
def isNum : CoordInput → Bool
  | .num _ => true
  | .nonNum => false

/-- `Number(v)` on a validated coordinate. -/
def numVal : CoordInput → ℚ
  | .num q => q
  | .nonNum => 0

/-- Two base-10 digits, zero-padded. -/
def pad2 (n : Nat) : String := if n < 10 then "0" ++ toString n else toString n

/-- `Number.prototype.toFixed(2)`: the magnitude is rounded to an integer
count of hundredths (ties away from zero), then printed with two decimal
digits and the sign restored. -/
def toFixed2 (q : ℚ) : String :=
  let n := (Int.floor (|q| * 100 + 1 / 2)).toNat
  (if q < 0 then "-" else "") ++ toString (n / 100) ++ "." ++ pad2 (n % 100)

/-- Source `keyCoords`:
`${Number(lat).toFixed(2)},${Number(lon).toFixed(2)}`. -/
def keyCoords (lat lon : ℚ) : String := toFixed2 lat ++ "," ++ toFixed2 lon

/-- `startTime || ''` (the empty string also maps to itself). -/
def orEmpty : Option String → String
  | some s => s
  | none => ""

/-- Source `getRealtime({lat, lon, units})`, primary path: the coordinate
validation (`INVALID_COORDS`, `e.status = 400`, thrown before the `try`)
followed by the Tomorrow.io fetch through the cache.  The Open-Meteo
catch-fallback — taken only after the primary path itself has thrown, hence
after its upstream calls — is modeled by the normalizers below. -/
def getRealtime (cfg : Cfg) (atts : Nat → AttemptOutcome) (cache : CacheMap)
    (now : Nat) (lat lon : CoordInput) (units : String) : RunResult :=
  if !(isNum lat) || !(isNum lon) then ⟨.error .invalidCoords, cache, now, [], 0⟩
  else
    getTomorrowRaw cfg ("realtime|" ++ keyCoords (numVal lat) (numVal lon) ++ "|" ++ units)
      atts cache now

/-- Source `getForecast({lat, lon, units, timesteps, startTime, endTime})`,
primary path, with the window parameters folded into the cache key. -/
def getForecast (cfg : Cfg) (atts : Nat → AttemptOutcome) (cache : CacheMap)
    (now : Nat) (lat lon : CoordInput) (units timesteps : String)
    (startTime endTime : Option String) : RunResult :=
  if !(isNum lat) || !(isNum lon) then ⟨.error .invalidCoords, cache, now, [], 0⟩
  else
    getTomorrowRaw cfg ("forecast|" ++ keyCoords (numVal lat) (numVal lon) ++ "|" ++ units
      ++ "|" ++ timesteps ++ "|" ++ orEmpty startTime ++ "|" ++ orEmpty endTime)
      atts cache now

/-- Claim C7, counterexample: `isNum` tests only numeric finiteness, so the
out-of-range coordinates (91, 0) — and (0, 181) for `getForecast` — are NOT
rejected: validation passes and the upstream fetch is performed (one call
here), instead of the claimed status-400 `InvalidInput` rejection before
any network call. -/
theorem coords_cex :
    isNum (.num 91) = true ∧
    (getRealtime (defaultCfg true) atts1 emptyCache 0 (.num 91) (.num 0) "metric").calls = 1 ∧
    (getRealtime (defaultCfg true) atts1 emptyCache 0 (.num 91) (.num 0) "metric").result =
      .ok (.vobj 1) ∧
    (getForecast (defaultCfg true) atts1 emptyCache 0 (.num 0) (.num 181) "metric" "1h"
      none none).calls = 1 := by decide

/-- Claim C7 (amended): `getRealtime` and `getForecast` reject a request as
the status-400 `INVALID_COORDS` error — before any upstream call, sleep, or
state change — exactly when `Number(lat)` or `Number(lon)` is not finite;
numeric out-of-range coordinates (latitude 91, longitude 181) pass the
validation and the fetch proceeds. -/
theorem coords_validation (cfg : Cfg) (atts : Nat → AttemptOutcome) (cache : CacheMap)
    (now : Nat) (lat lon : CoordInput) (units timesteps : String)
    (startTime endTime : Option String) :
    ((isNum lat = false ∨ isNum lon = false) →
      getRealtime cfg atts cache now lat lon units =
        ⟨.error .invalidCoords, cache, now, [], 0⟩ ∧
      getForecast cfg atts cache now lat lon units timesteps startTime endTime =
        ⟨.error .invalidCoords, cache, now, [], 0⟩ ∧
      JsError.statusProp .invalidCoords = some 400) ∧
    (∀ la lo, lat = .num la → lon = .num lo →
      getRealtime cfg atts cache now lat lon units =
        getTomorrowRaw cfg ("realtime|" ++ keyCoords la lo ++ "|" ++ units) atts cache now ∧
      getForecast cfg atts cache now lat lon units timesteps startTime endTime =
        getTomorrowRaw cfg ("forecast|" ++ keyCoords la lo ++ "|" ++ units ++ "|" ++ timesteps
          ++ "|" ++ orEmpty startTime ++ "|" ++ orEmpty endTime) atts cache now) := by
  constructor
  · intro h
    have hcond : (!(isNum lat) || !(isNum lon)) = true := by
      rcases h with h | h <;> simp [h]
    exact ⟨by simp only [getRealtime, hcond, if_true],
      by simp only [getForecast, hcond, if_true], rfl⟩
  · intro la lo hla hlo
    subst hla
    subst hlo
    constructor <;> simp [getRealtime, getForecast, isNum, numVal]

/-- Witness for `coords_validation`: a non-numeric latitude is rejected
with status 400 and zero upstream calls. -/
theorem coords_validation_witness :
    getRealtime (defaultCfg true) atts1 emptyCache 0 .nonNum (.num 0) "metric" =
      ⟨.error .invalidCoords, emptyCache, 0, [], 0⟩ ∧
    JsError.statusProp .invalidCoords = some 400 := by
  have h := (coords_validation (defaultCfg true) atts1 emptyCache 0 .nonNum (.num 0)
    "metric" "1h" none none).1 (Or.inl rfl)
  exact ⟨h.1, h.2.2⟩

/-! ## Timezone resolver and schedule window (`scheduleToUTCWindow`) -/

/-- A JavaScript property read from a schedule object: absent/`undefined`,
`null`, or a string. -/
inductive JsStrVal where
  | undef
  | null
  | str (s : String)
deriving DecidableEq, Repr

/-- A destructuring default (`{ horaInicio = '08:00' }`): applied for
`undefined` only, never for `null`. -/
def JsStrVal.withDefault (d : String) : JsStrVal → JsStrVal
  | .undef => .str d
  | v => v

/-- Template-literal interpolation of the value (`null` and `undefined`
stringify to `"null"` and `"undefined"`). -/
def JsStrVal.interp : JsStrVal → String
  | .undef => "undefined"
  | .null => "null"
  | .str s => s

/-- Truthiness of the value (only a nonempty string is truthy). -/
def JsStrVal.truthy : JsStrVal → Bool
  | .str s => s != ""
  | _ => false

/-- Source `resolveTimezone(lat, lon, scheduleTZ)`:
`try { return scheduleTZ || tzLookup(Number(lat), Number(lon)) }
 catch { return scheduleTZ || 'UTC' }`.
`tzl` is the `tz-lookup` library semantics (`.error` = it threw). -/
def resolveTimezone (tzl : ℚ → ℚ → Except Unit String) (lat lon : ℚ)
    (scheduleTZ : JsStrVal) : String :=
  if scheduleTZ.truthy then scheduleTZ.interp
  else
    match tzl lat lon with
    | .ok z => z
    | .error _ => "UTC"

/-- The schedule object consumed by `scheduleToUTCWindow`. -/
structure ScheduleJs where
  fecha : JsStrVal
  horaInicio : JsStrVal
  horaFin : JsStrVal
  zonaHoraria : JsStrVal
deriving DecidableEq, Repr

/-- The returned window.  The luxon `DateTime.fromISO(s, {zone}).toUTC()
.toISO()` pipeline is the parameter `lux` (`none` = invalid date, whose
`toISO()` is `null`); `startLocalStr`/`endLocalStr` are the wall-clock
strings `${fecha}T${horaInicio}` / `${fecha}T${horaFin}` that determine the
returned `startLocal`/`endLocal` DateTimes. -/
structure UTCWindow where
  tz : String
  startLocalStr : String
  endLocalStr : String
  startISO : Option String
  endISO : Option String
deriving DecidableEq, Repr

/-- Source `scheduleToUTCWindow({fecha, horaInicio = '08:00',
horaFin = '17:00', zonaHoraria}, lat, lon)`. -/
def scheduleToUTCWindow (tzl : ℚ → ℚ → Except Unit String)
    (lux : String → String → Option String) (sch : ScheduleJs) (lat lon : ℚ) : UTCWindow :=
  let tz := resolveTimezone tzl lat lon sch.zonaHoraria
  let sStr := sch.fecha.interp ++ "T" ++ (sch.horaInicio.withDefault "08:00").interp
  let eStr := sch.fecha.interp ++ "T" ++ (sch.horaFin.withDefault "17:00").interp
  ⟨tz, sStr, eStr, lux sStr tz, lux eStr tz⟩

/-- A schedule with `horaInicio: null` (as the extraction service returns)
and the other optional fields absent. -/
def schNull : ScheduleJs := ⟨.str "2024-06-10", .null, .undef, .undef⟩

/-- A schedule with all optional fields absent. -/
def schUndef : ScheduleJs := ⟨.str "2024-06-10", .undef, .undef, .undef⟩

/-- A timezone lookup that always resolves. -/
def tzlU : ℚ → ℚ → Except Unit String := fun _ _ => .ok "UTC"

/-- A luxon conversion stub (never consulted by the properties proved). -/
def luxNone : String → String → Option String := fun _ _ => none

/-- Claim C8, counterexample: for `horaInicio: null` the destructuring
default `horaInicio = '08:00'` does not apply (defaults fire only for
`undefined`), so the wall-clock string `scheduleToUTCWindow` parses is
"2024-06-10Tnull" — not the claimed 08:00 local start. -/
theorem schedule_defaults_cex :
    (scheduleToUTCWindow tzlU luxNone schNull 0 0).startLocalStr = "2024-06-10Tnull" ∧
    "2024-06-10Tnull" ≠ "2024-06-10T08:00" := by decide

/-- Claim C8 (amended): `scheduleToUTCWindow` applies the defaults 08:00
and 17:00 exactly when `horaInicio`/`horaFin` are absent (`undefined`), not
when they are `null` — a `null` is interpolated as the literal string
"null" into the wall-clock datetime; a `null` or absent `zonaHoraria` is
resolved from the coordinates (UTC when the lookup throws); and the
returned window is the luxon UTC conversion of the constructed wall-clock
strings in the resolved zone. -/
theorem schedule_defaults (tzl : ℚ → ℚ → Except Unit String)
    (lux : String → String → Option String) (sch : ScheduleJs) (lat lon : ℚ) :
    (sch.horaInicio = .undef →
      (scheduleToUTCWindow tzl lux sch lat lon).startLocalStr =
        sch.fecha.interp ++ "T" ++ "08:00") ∧
    (sch.horaInicio = .null →
      (scheduleToUTCWindow tzl lux sch lat lon).startLocalStr =
        sch.fecha.interp ++ "T" ++ "null") ∧
    (sch.horaFin = .undef →
      (scheduleToUTCWindow tzl lux sch lat lon).endLocalStr =
        sch.fecha.interp ++ "T" ++ "17:00") ∧
    (sch.horaFin = .null →
      (scheduleToUTCWindow tzl lux sch lat lon).endLocalStr =
        sch.fecha.interp ++ "T" ++ "null") ∧
    ((sch.zonaHoraria = .undef ∨ sch.zonaHoraria = .null) →
      (scheduleToUTCWindow tzl lux sch lat lon).tz =
        (match tzl lat lon with
          | .ok z => z
          | .error _ => "UTC")) ∧
    (scheduleToUTCWindow tzl lux sch lat lon).startISO =
      lux (scheduleToUTCWindow tzl lux sch lat lon).startLocalStr
        (scheduleToUTCWindow tzl lux sch lat lon).tz ∧
    (scheduleToUTCWindow tzl lux sch lat lon).endISO =
      lux (scheduleToUTCWindow tzl lux sch lat lon).endLocalStr
        (scheduleToUTCWindow tzl lux sch lat lon).tz := by
  refine ⟨?_, ?_, ?_, ?_, ?_, rfl, rfl⟩
  · intro h; simp [scheduleToUTCWindow, h, JsStrVal.withDefault, JsStrVal.interp]
  · intro h; simp [scheduleToUTCWindow, h, JsStrVal.withDefault, JsStrVal.interp]
  · intro h; simp [scheduleToUTCWindow, h, JsStrVal.withDefault, JsStrVal.interp]
  · intro h; simp [scheduleToUTCWindow, h, JsStrVal.withDefault, JsStrVal.interp]
  · intro h
    rcases h with h | h <;>
      simp [scheduleToUTCWindow, resolveTimezone, h, JsStrVal.truthy]

/-- Witness for `schedule_defaults`: absent fields produce the 08:00–17:00
window in the coordinate-resolved zone. -/
theorem schedule_defaults_witness :
    (scheduleToUTCWindow tzlU luxNone schUndef 0 0).startLocalStr = "2024-06-10T08:00" ∧
    (scheduleToUTCWindow tzlU luxNone schUndef 0 0).endLocalStr = "2024-06-10T17:00" ∧
    (scheduleToUTCWindow tzlU luxNone schUndef 0 0).tz = "UTC" := by
  have h := schedule_defaults tzlU luxNone schUndef 0 0
  refine ⟨?_, ?_, ?_⟩
  · rw [h.1 rfl]; decide
  · rw [h.2.2.1 rfl]; decide
  · rw [h.2.2.2.2.1 (Or.inl rfl)]; rfl

/-! ## Normalizers (`normalizeRealtimePayload`, `denormalizeToTomorrowShape`,
`normalizeOpenMeteo`) -/

/-- The `data.values` fields of a Tomorrow-shaped realtime payload
(`none` models `null`/absent). -/
structure TomorrowValues where
  temperature : Option ℚ
  temperatureApparent : Option ℚ
  humidity : Option ℚ
  windSpeed : Option ℚ
  windGust : Option ℚ
  windDirection : Option ℚ
  pressureSurfaceLevel : Option ℚ
  visibility : Option ℚ
  uvIndex : Option ℚ
  uvHealthConcern : Option ℚ
  rainIntensity : Option ℚ
  precipitationIntensity : Option ℚ
  precipitationProbability : Option ℚ
  cloudCover : Option ℚ
  weatherCode : Option Int
deriving DecidableEq, Repr

/-- The `{}` fallback for absent `data.values`. -/
def emptyTomorrowValues : TomorrowValues :=
  ⟨none, none, none, none, none, none, none, none, none, none, none, none, none, none, none⟩

/-- The `data` member of a Tomorrow-shaped realtime payload. -/
structure TomorrowData where
  time : Option String
  values : Option TomorrowValues
deriving DecidableEq, Repr

/-- The `location` member of a Tomorrow-shaped realtime payload. -/
structure TomorrowLoc where
  lat : Option ℚ
  lon : Option ℚ
  name : Option String
deriving DecidableEq, Repr

/-- The `{}` fallback for an absent `location`. -/
def emptyTomorrowLoc : TomorrowLoc := ⟨none, none, none⟩

/-- A Tomorrow-shaped realtime payload. -/
structure TomorrowShape where
  data : Option TomorrowData
  location : Option TomorrowLoc
deriving DecidableEq, Repr

/-- Source `codeToText`: the fixed 25-entry lookup with the em-dash
sentinel for unmapped (or absent) codes. -/
def codeToText : Option Int → String
  | some 1000 => "Despejado"
  | some 1100 => "Mayormente despejado"
  | some 1101 => "Parcialmente nublado"
  | some 1102 => "Mayormente nublado"
  | some 1001 => "Nublado"
  | some 2000 => "Niebla"
  | some 2100 => "Niebla ligera"
  | some 3000 => "Viento ligero"
  | some 3001 => "Viento"
  | some 3002 => "Viento fuerte"
  | some 4000 => "Llovizna"
  | some 4200 => "Lluvia ligera"
  | some 4001 => "Lluvia"
  | some 4201 => "Lluvia intensa"
  | some 5000 => "Nieve"
  | some 5100 => "Nieve ligera"
  | some 5001 => "Chubascos de nieve"
  | some 5101 => "Nieve intensa"
  | some 6000 => "Aguanieve"
  | some 6200 => "Aguanieve ligera"
  | some 6001 => "Aguanieve intensa"
  | some 7000 => "Granizo"
  | some 7102 => "Granizo ligero"
  | some 7101 => "Granizo intenso"
  | some 8000 => "Tormenta"
  | _ => "—"

/-- The canonical realtime observation, exactly as the normalizers shape it
(`precipitacion` and `weatherText` are never null in their output, so they
are total fields; `at` is renamed `atTime` because `at` is reserved). -/
structure Obs where
  atTime : Option String
  lat : Option ℚ
  lon : Option ℚ
  name : Option String
  temperatura : Option ℚ
  sensacionTermica : Option ℚ
  humedad : Option ℚ
  viento : Option ℚ
  vientoRafaga : Option ℚ
  direccionViento : Option ℚ
  presion : Option ℚ
  visibilidad : Option ℚ
  uv : Option ℚ
  uvHealthConcern : Option ℚ
  precipitacion : ℚ
  probPrecipitacion : Option ℚ
  nubes : Option ℚ
  weatherCode : Option Int
  weatherText : String
deriving DecidableEq, Repr

/-- Source `normalizeRealtimePayload(apiData)`. -/
def normalizeRealtimePayload (apiData : Option TomorrowShape) : Obs :=
  let v := ((apiData.bind TomorrowShape.data).bind TomorrowData.values).getD
    emptyTomorrowValues
  let loc := (apiData.bind TomorrowShape.location).getD emptyTomorrowLoc
  let time := (apiData.bind TomorrowShape.data).bind TomorrowData.time
  { atTime := match time with
      | some s => if s != "" then some s else none
      | none => none
    lat := loc.lat
    lon := loc.lon
    name := loc.name
    temperatura := v.temperature
    sensacionTermica := v.temperatureApparent
    humedad := v.humidity
    viento := v.windSpeed
    vientoRafaga := v.windGust
    direccionViento := v.windDirection
    presion := v.pressureSurfaceLevel
    visibilidad := v.visibility
    uv := v.uvIndex
    uvHealthConcern := v.uvHealthConcern
    precipitacion := match v.rainIntensity with
      | some x => x
      | none => v.precipitationIntensity.getD 0
    probPrecipitacion := v.precipitationProbability
    nubes := v.cloudCover
    weatherCode := v.weatherCode
    weatherText := codeToText v.weatherCode }

/-- Source `denormalizeToTomorrowShape(n)`.  Note: it emits no
`uvHealthConcern` and no `precipitationIntensity` field, and it maps
`precipitacion` to `rainIntensity`. -/
def denormalizeToTomorrowShape (n : Obs) : TomorrowShape :=
  { data := some
      { time := n.atTime
        values := some
          { temperature := n.temperatura
            temperatureApparent := n.sensacionTermica
            humidity := n.humedad
            windSpeed := n.viento
            windGust := n.vientoRafaga
            windDirection := n.direccionViento
            pressureSurfaceLevel := n.presion
            visibility := n.visibilidad
            uvIndex := n.uv
            uvHealthConcern := none
            rainIntensity := some n.precipitacion
            precipitationIntensity := none
            precipitationProbability := n.probPrecipitacion
            cloudCover := n.nubes
            weatherCode := n.weatherCode } }
    location := some { lat := n.lat, lon := n.lon, name := n.name } }

/-- The `current` member of an Open-Meteo realtime payload. -/
structure OMCurrent where
  time : Option String
  temperature_2m : Option ℚ
  apparent_temperature : Option ℚ
  relative_humidity_2m : Option ℚ
  wind_speed_10m : Option ℚ
  wind_gusts_10m : Option ℚ
  wind_direction_10m : Option ℚ
  uv_index : Option ℚ
  visibility : Option ℚ
  precipitation : Option ℚ
deriving DecidableEq, Repr

/-- The `{}` fallback for an absent `current`. -/
def emptyOMCurrent : OMCurrent :=
  ⟨none, none, none, none, none, none, none, none, none, none⟩

/-- An Open-Meteo realtime payload. -/
structure OMPayload where
  latitude : Option ℚ
  longitude : Option ℚ
  current : Option OMCurrent
deriving DecidableEq, Repr

/-- Source `normalizeOpenMeteo(api)` (visibility is meters, converted to
km with one-decimal rounding; missing precipitation defaults to 0). -/
def normalizeOpenMeteo (api : Option OMPayload) : Obs :=
  let c := (api.bind OMPayload.current).getD emptyOMCurrent
  { atTime := match c.time with
      | some s => if s != "" then some s else none
      | none => none
    lat := api.bind OMPayload.latitude
    lon := api.bind OMPayload.longitude
    name := none
    temperatura := c.temperature_2m
    sensacionTermica := c.apparent_temperature
    humedad := c.relative_humidity_2m
    viento := c.wind_speed_10m
    vientoRafaga := c.wind_gusts_10m
    direccionViento := c.wind_direction_10m
    presion := none
    visibilidad := c.visibility.map (fun m => toFixed1 (m / 1000))
    uv := c.uv_index
    uvHealthConcern := none
    precipitacion := c.precipitation.getD 0
    probPrecipitacion := none
    nubes := none
    weatherCode := none
    weatherText := "Datos por Open-Meteo" }

/-- The canonical-to-primary-to-canonical round trip of claim C9. -/
def roundTrip (n : Obs) : Obs :=
  normalizeRealtimePayload (some (denormalizeToTomorrowShape n))

/-- A concrete Open-Meteo payload. -/
def om0 : Option OMPayload :=
  some ⟨some 1, some 2, some ⟨some "2024-06-10T00:00", some 20, some 21, some 50,
    some 3, some 5, some 180, some 4, none, some 0⟩⟩

/-- Claim C9, counterexample: the round trip is not the identity on
normalizer output — a secondary-provider observation carries
`weatherText: 'Datos por Open-Meteo'` and `weatherCode: null`, and
`denormalizeToTomorrowShape` drops the text, so the round trip recomputes
`codeToText(null) = "—"`, making the result distinguishable from the
observation it came from. -/
theorem roundtrip_cex :
    roundTrip (normalizeOpenMeteo om0) ≠ normalizeOpenMeteo om0 ∧
    (normalizeOpenMeteo om0).weatherText = "Datos por Open-Meteo" ∧
    (roundTrip (normalizeOpenMeteo om0)).weatherText = "—" := by decide

/-- Claim C9 (amended): for every canonical observation `n` as produced by
the normalizers (so `at` is null or a nonempty string),
`normalizeRealtimePayload(denormalizeToTomorrowShape(n))` agrees with `n`
on every field except `uvHealthConcern`, which always becomes null (the
inverse mapping omits it), and `weatherText`, which is recomputed as
`codeToText(weatherCode)`; the round trip is therefore the identity
exactly on observations with `uvHealthConcern = null` and
`weatherText = codeToText(weatherCode)` — primary-derived observations
with null `uvHealthConcern` qualify, secondary-derived ones do not (their
`weatherText` becomes "—"). -/
theorem roundtrip_spec (n : Obs) (hat : n.atTime ≠ some "") :
    roundTrip n =
      { n with uvHealthConcern := none, weatherText := codeToText n.weatherCode } := by
  cases n with
  | mk atTime lat lon name temperatura sensacionTermica humedad viento vientoRafaga
      direccionViento presion visibilidad uv uvH precipitacion probPrecipitacion
      nubes weatherCode weatherText =>
    cases atTime with
    | none => rfl
    | some s =>
      have hs : s ≠ "" := by
        intro hc
        apply hat
        rw [hc]
      have hbne : (s != "") = true := by simpa using hs
      simp [roundTrip, normalizeRealtimePayload, denormalizeToTomorrowShape, hbne]

/-! ## Single-flight coalescing (`getTomorrowRaw` under concurrency)

JavaScript is single-threaded: code runs atomically between `await`
suspension points.  In `getTomorrowRaw` the suspension points are the
upstream `http.get` and the backoff `sleep`, so the following segments are
atomic: a caller's whole entry (fresh-cache check, inflight check, running
the worker IIFE up to its first `await` — which starts the first upstream
call or, without a credential, the first backoff sleep — then attaching
`.finally` and `inflight.set`); each loop continuation between awaits; and
the settle segment (the `.finally` inflight deletion runs before the outer
promise settles for its awaiters).  The step relation below has exactly
these atomic segments as steps; `atts w i` is the outcome of attempt `i`
of worker `w`, and `tick` lets the clock advance arbitrarily. -/

/-- Pointwise update of a map. -/
def fupd {α β : Type} [DecidableEq α] (f : α → β) (a : α) (b : β) : α → β :=
  fun x => if x = a then b else f x

theorem fupd_same {α β : Type} [DecidableEq α] (f : α → β) (a : α) (b : β) :
    fupd f a b a = b := by simp [fupd]

theorem fupd_other {α β : Type} [DecidableEq α] (f : α → β) (a x : α) (b : β)
    (h : x ≠ a) : fupd f a b x = f x := by simp [fupd, h]

/-- Phase of an inflight worker promise (the async IIFE of
`getTomorrowRaw`): suspended in the upstream call of attempt `i`,
suspended in the sleep following the retryably-failed attempt `i`
(carrying `lastErr`), or settled with its outcome. -/
inductive WPhase where
  | awaitHttp (i : Nat)
  | awaitSleep (i : Nat) (lastErr : JsError)
  | settled (r : FetchResult)
deriving DecidableEq, Repr

/-- A worker: the upstream-fetch promise registered in `inflight`. -/
structure Worker where
  key : String
  phase : WPhase
deriving DecidableEq, Repr

/-- Whether the worker promise has settled. -/
def Worker.isSettled (w : Worker) : Bool :=
  match w.phase with
  | .settled _ => true
  | _ => false

/-- One caller of `getTomorrowRaw` for its key: not yet entered, awaiting a
worker promise, or returned (`joined = none` when the result came straight
from the fresh cache). -/
inductive CallerSt where
  | pending (key : String)
  | waiting (key : String) (w : Nat)
  | returned (key : String) (joined : Option Nat) (r : FetchResult)
deriving DecidableEq, Repr

/-- Global state: the clock, the `cache` and `inflight` maps, the workers
by id (allocated below `nextW`), and the callers by id. -/
structure CState where
  now : Nat
  cache : CacheMap
  inflight : String → Option Nat
  workers : Nat → Option Worker
  nextW : Nat
  callers : Nat → Option CallerSt

/-- The phase in which a fresh worker first suspends: the first upstream
call when the credential is present, else the first backoff sleep of the
caught `MISSING_API_KEY` error. -/
def initPhase (cfg : Cfg) : WPhase :=
  if cfg.apiKey then .awaitHttp 0 else .awaitSleep 0 .missingApiKey

/-- The atomic steps of the concurrent system.  Worker creation requires
`0 < MAX_RETRIES` (with zero retries the IIFE settles synchronously and no
suspension point exists; that degenerate configuration is outside this
model). -/
inductive Step (cfg : Cfg) (atts : Nat → Nat → AttemptOutcome) : CState → CState → Prop where
  | tick (s : CState) (d : Nat) :
      Step cfg atts s { s with now := s.now + d }
  | callerFresh (s : CState) (c : Nat) (k : String) (d : JsVal)
      (hc : s.callers c = some (.pending k))
      (hg : getCache s.cache s.now k = some d)
      (ht : d.truthy = true) :
      Step cfg atts s
        { s with callers := fupd s.callers c (some (.returned k none (.ok d))) }
  | callerJoin (s : CState) (c : Nat) (k : String) (w : Nat)
      (hc : s.callers c = some (.pending k))
      (hf : freshTruthy s.cache s.now k = false)
      (hi : s.inflight k = some w) :
      Step cfg atts s
        { s with callers := fupd s.callers c (some (.waiting k w)) }
  | callerStart (s : CState) (c : Nat) (k : String)
      (hc : s.callers c = some (.pending k))
      (hf : freshTruthy s.cache s.now k = false)
      (hi : s.inflight k = none)
      (hM : 0 < cfg.maxRetries) :
      Step cfg atts s
        { s with
          workers := fupd s.workers s.nextW (some ⟨k, initPhase cfg⟩)
          inflight := fupd s.inflight k (some s.nextW)
          callers := fupd s.callers c (some (.waiting k s.nextW))
          nextW := s.nextW + 1 }
  | httpSuccess (s : CState) (w : Nat) (k : String) (i : Nat) (d : JsVal)
      (hw : s.workers w = some ⟨k, .awaitHttp i⟩)
      (ha : atts w i = .success d) :
      Step cfg atts s
        { s with
          cache := setCache cfg s.cache s.now k d
          workers := fupd s.workers w (some ⟨k, .settled (.ok d)⟩)
          inflight := fupd s.inflight k none }
  | httpFailRetry (s : CState) (w : Nat) (k : String) (i : Nat) (st ra : Option Nat)
      (hw : s.workers w = some ⟨k, .awaitHttp i⟩)
      (ha : atts w i = .failure st ra)
      (hr : retryableStatus st = true) :
      Step cfg atts s
        { s with workers := fupd s.workers w (some ⟨k, .awaitSleep i (.http st ra)⟩) }
  | httpFailFatal (s : CState) (w : Nat) (k : String) (i : Nat) (st ra : Option Nat)
      (hw : s.workers w = some ⟨k, .awaitHttp i⟩)
      (ha : atts w i = .failure st ra)
      (hr : retryableStatus st = false) :
      Step cfg atts s
        { s with
          workers := fupd s.workers w (some ⟨k, .settled (.error (.http st ra))⟩)
          inflight := fupd s.inflight k none }
  | sleepNext (s : CState) (w : Nat) (k : String) (i : Nat) (e : JsError)
      (hw : s.workers w = some ⟨k, .awaitSleep i e⟩)
      (hlt : i + 1 < cfg.maxRetries) :
      Step cfg atts s
        { s with
          workers := fupd s.workers w (some ⟨k,
            if cfg.apiKey then .awaitHttp (i + 1) else .awaitSleep (i + 1) .missingApiKey⟩) }
  | sleepExhaust (s : CState) (w : Nat) (k : String) (i : Nat) (e : JsError)
      (hw : s.workers w = some ⟨k, .awaitSleep i e⟩)
      (hge : cfg.maxRetries ≤ i + 1) :
      Step cfg atts s
        { s with
          workers := fupd s.workers w (some ⟨k, .settled (staleResult s.cache k e)⟩)
          inflight := fupd s.inflight k none }
  | callerRecv (s : CState) (c : Nat) (k : String) (w : Nat) (r : FetchResult)
      (hc : s.callers c = some (.waiting k w))
      (hw : s.workers w = some ⟨k, .settled r⟩) :
      Step cfg atts s
        { s with callers := fupd s.callers c (some (.returned k (some w) r)) }

/-- A pristine start: no workers, no inflight handles, all callers (if any)
not yet entered; the cache may hold anything. -/
def ValidInit (s : CState) : Prop :=
  s.inflight = (fun _ => none) ∧ s.workers = (fun _ => none) ∧ s.nextW = 0 ∧
  ∀ c st, s.callers c = some st → ∃ k, st = CallerSt.pending k

/-- States reachable from a pristine start by the atomic steps. -/
inductive Reachable (cfg : Cfg) (atts : Nat → Nat → AttemptOutcome) : CState → Prop where
  | init (s : CState) (h : ValidInit s) : Reachable cfg atts s
  | step (s s' : CState) (h : Reachable cfg atts s) (hs : Step cfg atts s s') :
      Reachable cfg atts s'

/-- The inductive invariant: worker ids are allocated below `nextW`; the
inflight map holds exactly the unsettled workers, keyed consistently;
waiting callers point at a worker for their key; returned callers that
joined a worker carry precisely that worker's settled result. -/
structure Inv (s : CState) : Prop where
  bound : ∀ w, s.nextW ≤ w → s.workers w = none
  inflight_worker : ∀ k w, s.inflight k = some w →
    ∃ wk, s.workers w = some wk ∧ wk.key = k ∧ wk.isSettled = false
  worker_inflight : ∀ w wk, s.workers w = some wk → wk.isSettled = false →
    s.inflight wk.key = some w
  waiting_worker : ∀ c k w, s.callers c = some (.waiting k w) →
    ∃ ph, s.workers w = some ⟨k, ph⟩
  returned_worker : ∀ c k w r, s.callers c = some (.returned k (some w) r) →
    s.workers w = some ⟨k, .settled r⟩

/-- A pristine start satisfies the invariant. -/
theorem inv_init (s : CState) (h : ValidInit s) : Inv s := by
  obtain ⟨hi, hw, _hn, hc⟩ := h
  constructor
  · intro w _
    rw [hw]
  · intro k w hin
    rw [hi] at hin
    simp at hin
  · intro w wk hw' _
    rw [hw] at hw'
    simp at hw'
  · intro c k w hcw
    obtain ⟨k', hk⟩ := hc c _ hcw
    simp at hk
  · intro c k w r hcw
    obtain ⟨k', hk⟩ := hc c _ hcw
    simp at hk

/-- Settling a worker (with any cache replacement) preserves the
invariant: the worker flips to `settled` and its inflight handle is
deleted in the same atomic segment. -/
theorem inv_settle (s : CState) (hI : Inv s) (cch : CacheMap) (w : Nat) (k : String)
    (ph : WPhase) (r : FetchResult)
    (hw : s.workers w = some ⟨k, ph⟩) (hns : Worker.isSettled ⟨k, ph⟩ = false) :
    Inv { s with
      cache := cch
      workers := fupd s.workers w (some ⟨k, WPhase.settled r⟩)
      inflight := fupd s.inflight k none } := by
  refine ⟨?_, ?_, ?_, ?_, ?_⟩
  · dsimp only
    intro w' hge
    have hne : w' ≠ w := by
      intro he
      subst he
      rw [hI.bound w' hge] at hw
      simp at hw
    rw [fupd_other _ _ _ _ hne]
    exact hI.bound w' hge
  · dsimp only
    intro k' w' hin
    by_cases hkk : k' = k
    · subst hkk
      rw [fupd_same] at hin
      simp at hin
    · rw [fupd_other _ _ _ _ hkk] at hin
      obtain ⟨wk, hwk, hkey, hset⟩ := hI.inflight_worker k' w' hin
      have hne : w' ≠ w := by
        intro he
        subst he
        rw [hw] at hwk
        injection hwk with h1
        rw [← h1] at hkey
        have hk3 : k = k' := hkey
        exact hkk hk3.symm
      exact ⟨wk, by rw [fupd_other _ _ _ _ hne]; exact hwk, hkey, hset⟩
  · dsimp only
    intro w' wk hw' hset
    by_cases hww : w' = w
    · subst hww
      rw [fupd_same] at hw'
      injection hw' with h1
      rw [← h1] at hset
      simp [Worker.isSettled] at hset
    · rw [fupd_other _ _ _ _ hww] at hw'
      have hold := hI.worker_inflight w' wk hw' hset
      by_cases hkk : wk.key = k
      · exfalso
        have h2 := hI.worker_inflight w ⟨k, ph⟩ hw hns
        rw [hkk] at hold
        have h2' : s.inflight k = some w := h2
        rw [h2'] at hold
        injection hold with h3
        exact hww h3.symm
      · rw [fupd_other _ _ _ _ hkk]
        exact hold
  · dsimp only
    intro c' k' w' hc'
    obtain ⟨ph', hwk⟩ := hI.waiting_worker c' k' w' hc'
    by_cases hww : w' = w
    · subst hww
      rw [hw] at hwk
      injection hwk with h1
      have hk2 : k = k' := congrArg Worker.key h1
      subst hk2
      exact ⟨WPhase.settled r, by rw [fupd_same]⟩
    · exact ⟨ph', by rw [fupd_other _ _ _ _ hww]; exact hwk⟩
  · dsimp only
    intro c' k' w' r' hc'
    have hold := hI.returned_worker c' k' w' r' hc'
    have hne : w' ≠ w := by
      intro he
      subst he
      rw [hw] at hold
      injection hold with h1
      have hp : ph = WPhase.settled r' := congrArg Worker.phase h1
      rw [hp] at hns
      simp [Worker.isSettled] at hns
    rw [fupd_other _ _ _ _ hne]
    exact hold

/-- Re-suspending a worker (same key, unsettled before and after)
preserves the invariant. -/
theorem inv_rephase (s : CState) (hI : Inv s) (w : Nat) (k : String) (ph ph' : WPhase)
    (hw : s.workers w = some ⟨k, ph⟩)
    (hns : Worker.isSettled ⟨k, ph⟩ = false)
    (hns' : Worker.isSettled ⟨k, ph'⟩ = false) :
    Inv { s with workers := fupd s.workers w (some ⟨k, ph'⟩) } := by
  refine ⟨?_, ?_, ?_, ?_, ?_⟩
  · dsimp only
    intro w' hge
    have hne : w' ≠ w := by
      intro he
      subst he
      rw [hI.bound w' hge] at hw
      simp at hw
    rw [fupd_other _ _ _ _ hne]
    exact hI.bound w' hge
  · dsimp only
    intro k' w' hin
    obtain ⟨wk, hwk, hkey, hset⟩ := hI.inflight_worker k' w' hin
    by_cases hww : w' = w
    · subst hww
      rw [hw] at hwk
      injection hwk with h1
      have hk2 : k = k' := by
        rw [← hkey, ← h1]
      exact ⟨⟨k, ph'⟩, by rw [fupd_same], hk2, hns'⟩
    · exact ⟨wk, by rw [fupd_other _ _ _ _ hww]; exact hwk, hkey, hset⟩
  · dsimp only
    intro w' wk hw' hset
    by_cases hww : w' = w
    · rw [hww, fupd_same] at hw'
      injection hw' with h1
      have hkey : wk.key = k := by rw [← h1]
      rw [hkey, hww]
      exact hI.worker_inflight w ⟨k, ph⟩ hw hns
    · rw [fupd_other _ _ _ _ hww] at hw'
      exact hI.worker_inflight w' wk hw' hset
  · dsimp only
    intro c' k' w' hc'
    obtain ⟨p0, hwk⟩ := hI.waiting_worker c' k' w' hc'
    by_cases hww : w' = w
    · subst hww
      rw [hw] at hwk
      injection hwk with h1
      have hk2 : k = k' := congrArg Worker.key h1
      subst hk2
      exact ⟨ph', by rw [fupd_same]⟩
    · exact ⟨p0, by rw [fupd_other _ _ _ _ hww]; exact hwk⟩
  · dsimp only
    intro c' k' w' r' hc'
    have hold := hI.returned_worker c' k' w' r' hc'
    have hne : w' ≠ w := by
      intro he
      subst he
      rw [hw] at hold
      injection hold with h1
      have hp : ph = WPhase.settled r' := congrArg Worker.phase h1
      rw [hp] at hns
      simp [Worker.isSettled] at hns
    rw [fupd_other _ _ _ _ hne]
    exact hold

/-- Every atomic step preserves the invariant. -/
theorem inv_step (cfg : Cfg) (atts : Nat → Nat → AttemptOutcome) (s s' : CState)
    (hs : Step cfg atts s s') (hI : Inv s) : Inv s' := by
  cases hs with
  | tick d =>
    exact ⟨hI.bound, hI.inflight_worker, hI.worker_inflight, hI.waiting_worker,
      hI.returned_worker⟩
  | callerFresh c k d hc hg ht =>
    refine ⟨hI.bound, hI.inflight_worker, hI.worker_inflight, ?_, ?_⟩
    · dsimp only
      intro c' k' w' hc'
      by_cases hcc : c' = c
      · subst hcc
        rw [fupd_same] at hc'
        simp at hc'
      · rw [fupd_other _ _ _ _ hcc] at hc'
        exact hI.waiting_worker c' k' w' hc'
    · dsimp only
      intro c' k' w' r' hc'
      by_cases hcc : c' = c
      · subst hcc
        rw [fupd_same] at hc'
        simp at hc'
      · rw [fupd_other _ _ _ _ hcc] at hc'
        exact hI.returned_worker c' k' w' r' hc'
  | callerJoin c k w hc hf hi =>
    refine ⟨hI.bound, hI.inflight_worker, hI.worker_inflight, ?_, ?_⟩
    · dsimp only
      intro c' k' w' hc'
      by_cases hcc : c' = c
      · subst hcc
        rw [fupd_same] at hc'
        have h1 : k = k' ∧ w = w' := by simpa using hc'
        obtain ⟨rfl, rfl⟩ := h1
        obtain ⟨wk, hwk, hkey, _⟩ := hI.inflight_worker k w hi
        cases wk with
        | mk wkey wph =>
          obtain rfl : wkey = k := hkey
          exact ⟨wph, hwk⟩
      · rw [fupd_other _ _ _ _ hcc] at hc'
        exact hI.waiting_worker c' k' w' hc'
    · dsimp only
      intro c' k' w' r' hc'
      by_cases hcc : c' = c
      · subst hcc
        rw [fupd_same] at hc'
        simp at hc'
      · rw [fupd_other _ _ _ _ hcc] at hc'
        exact hI.returned_worker c' k' w' r' hc'
  | callerStart c k hc hf hi hM =>
    refine ⟨?_, ?_, ?_, ?_, ?_⟩
    · dsimp only
      intro w' hge
      have hne : w' ≠ s.nextW := by omega
      rw [fupd_other _ _ _ _ hne]
      exact hI.bound w' (by omega)
    · dsimp only
      intro k' w' hin
      by_cases hkk : k' = k
      · subst hkk
        rw [fupd_same] at hin
        injection hin with h1
        subst h1
        refine ⟨⟨k', initPhase cfg⟩, by rw [fupd_same], rfl, ?_⟩
        unfold initPhase Worker.isSettled
        cases cfg.apiKey <;> simp
      · rw [fupd_other _ _ _ _ hkk] at hin
        obtain ⟨wk, hwk, hkey, hset⟩ := hI.inflight_worker k' w' hin
        have hne : w' ≠ s.nextW := by
          intro he
          rw [he, hI.bound s.nextW (Nat.le_refl _)] at hwk
          simp at hwk
        exact ⟨wk, by rw [fupd_other _ _ _ _ hne]; exact hwk, hkey, hset⟩
    · dsimp only
      intro w' wk hw' hset
      by_cases hww : w' = s.nextW
      · subst hww
        rw [fupd_same] at hw'
        injection hw' with h1
        have hkey : wk.key = k := by rw [← h1]
        rw [hkey]
        show fupd s.inflight k (some s.nextW) k = some s.nextW
        exact fupd_same _ _ _
      · rw [fupd_other _ _ _ _ hww] at hw'
        have hold := hI.worker_inflight w' wk hw' hset
        by_cases hkk : wk.key = k
        · rw [hkk, hi] at hold
          simp at hold
        · rw [fupd_other _ _ _ _ hkk]
          exact hold
    · dsimp only
      intro c' k' w' hc'
      by_cases hcc : c' = c
      · subst hcc
        rw [fupd_same] at hc'
        have h1 : k = k' ∧ s.nextW = w' := by simpa using hc'
        obtain ⟨rfl, rfl⟩ := h1
        exact ⟨initPhase cfg, by rw [fupd_same]⟩
      · rw [fupd_other _ _ _ _ hcc] at hc'
        obtain ⟨p0, hwk⟩ := hI.waiting_worker c' k' w' hc'
        have hne : w' ≠ s.nextW := by
          intro he
          rw [he, hI.bound s.nextW (Nat.le_refl _)] at hwk
          simp at hwk
        exact ⟨p0, by rw [fupd_other _ _ _ _ hne]; exact hwk⟩
    · dsimp only
      intro c' k' w' r' hc'
      by_cases hcc : c' = c
      · subst hcc
        rw [fupd_same] at hc'
        simp at hc'
      · rw [fupd_other _ _ _ _ hcc] at hc'
        have hold := hI.returned_worker c' k' w' r' hc'
        have hne : w' ≠ s.nextW := by
          intro he
          rw [he, hI.bound s.nextW (Nat.le_refl _)] at hold
          simp at hold
        rw [fupd_other _ _ _ _ hne]
        exact hold
  | httpSuccess w k i d hw ha =>
    exact inv_settle s hI (setCache cfg s.cache s.now k d) w k (.awaitHttp i) (.ok d) hw rfl
  | httpFailRetry w k i st ra hw ha hr =>
    exact inv_rephase s hI w k (.awaitHttp i) (.awaitSleep i (.http st ra)) hw rfl rfl
  | httpFailFatal w k i st ra hw ha hr =>
    exact inv_settle s hI s.cache w k (.awaitHttp i) (.error (.http st ra)) hw rfl
  | sleepNext w k i e hw hlt =>
    exact inv_rephase s hI w k (.awaitSleep i e)
      (if cfg.apiKey then .awaitHttp (i + 1) else .awaitSleep (i + 1) .missingApiKey)
      hw rfl (by cases cfg.apiKey <;> rfl)
  | sleepExhaust w k i e hw hge =>
    exact inv_settle s hI s.cache w k (.awaitSleep i e) (staleResult s.cache k e) hw rfl
  | callerRecv c k w r hc hw =>
    refine ⟨hI.bound, hI.inflight_worker, hI.worker_inflight, ?_, ?_⟩
    · dsimp only
      intro c' k' w' hc'
      by_cases hcc : c' = c
      · subst hcc
        rw [fupd_same] at hc'
        simp at hc'
      · rw [fupd_other _ _ _ _ hcc] at hc'
        exact hI.waiting_worker c' k' w' hc'
    · dsimp only
      intro c' k' w' r' hc'
      by_cases hcc : c' = c
      · subst hcc
        rw [fupd_same] at hc'
        have h1 : k = k' ∧ w = w' ∧ r = r' := by simpa using hc'
        obtain ⟨rfl, rfl, rfl⟩ := h1
        exact hw
      · rw [fupd_other _ _ _ _ hcc] at hc'
        exact hI.returned_worker c' k' w' r' hc'

/-- The single-flight properties claimed for `getTomorrowRaw`: (a) per
key, at most one upstream call is outstanding; (b) any two callers that
awaited the same inflight worker return the same result (or the same
propagated error); (c) the inflight map holds a handle for a key exactly
while that worker's fetch is unsettled. -/
def SingleFlight (s : CState) : Prop :=
  (∀ k w1 w2 i1 i2, s.workers w1 = some ⟨k, .awaitHttp i1⟩ →
    s.workers w2 = some ⟨k, .awaitHttp i2⟩ → w1 = w2) ∧
  (∀ c1 c2 k1 k2 w r1 r2, s.callers c1 = some (.returned k1 (some w) r1) →
    s.callers c2 = some (.returned k2 (some w) r2) → r1 = r2) ∧
  (∀ k w, s.inflight k = some w ↔
    ∃ ph, s.workers w = some ⟨k, ph⟩ ∧ ∀ r, ph ≠ WPhase.settled r)

/-- Claim C1: in every state reachable from a pristine start, at most one
upstream fetch started by `getTomorrowRaw` is outstanding per cache key,
regardless of caller concurrency; a caller that found an inflight handle
awaited that worker and, once returned, carries exactly the worker's
settled result — the same value or propagated error every other awaiter of
that fetch (its starter included) receives; and an inflight handle for a
key exists exactly while the underlying fetch is unsettled, whether it
ends in success or failure. -/
theorem single_flight (cfg : Cfg) (atts : Nat → Nat → AttemptOutcome) (s : CState)
    (h : Reachable cfg atts s) : SingleFlight s := by
  have hI : Inv s := by
    induction h with
    | init s0 h0 => exact inv_init s0 h0
    | step s0 s1 _h0 hs ih => exact inv_step cfg atts s0 s1 hs ih
  refine ⟨?_, ?_, ?_⟩
  · intro k w1 w2 i1 i2 h1 h2
    have e1 : s.inflight k = some w1 :=
      hI.worker_inflight w1 ⟨k, .awaitHttp i1⟩ h1 rfl
    have e2 : s.inflight k = some w2 :=
      hI.worker_inflight w2 ⟨k, .awaitHttp i2⟩ h2 rfl
    rw [e1] at e2
    injection e2
  · intro c1 c2 k1 k2 w r1 r2 h1 h2
    have e1 := hI.returned_worker c1 k1 w r1 h1
    have e2 := hI.returned_worker c2 k2 w r2 h2
    rw [e1] at e2
    injection e2 with h3
    have hp := congrArg Worker.phase h3
    injection hp
  · intro k w
    constructor
    · intro hin
      obtain ⟨wk, hwk, hkey, hset⟩ := hI.inflight_worker k w hin
      cases wk with
      | mk wkey ph =>
        obtain rfl : wkey = k := hkey
        refine ⟨ph, hwk, ?_⟩
        intro r hr
        rw [hr] at hset
        simp [Worker.isSettled] at hset
    · intro hex
      obtain ⟨ph, hwk, hns⟩ := hex
      have hset : Worker.isSettled ⟨k, ph⟩ = false := by
        cases ph with
        | settled r => exact absurd rfl (hns r)
        | awaitHttp i => rfl
        | awaitSleep i e => rfl
      exact hI.worker_inflight w ⟨k, ph⟩ hwk hset

/-- Oracle for the single-flight witness: every attempt succeeds. -/
def attsC : Nat → Nat → AttemptOutcome := fun _ _ => .success (.vobj 1)

/-- A pristine initial state with one pending caller for key "k". -/
def cInit : CState :=
  ⟨0, emptyCache, fun _ => none, fun _ => none, 0,
    fun c => if c = 0 then some (.pending "k") else none⟩

/-- Witness for `single_flight`: the pristine one-caller state is
reachable and satisfies the single-flight properties. -/
theorem single_flight_witness : SingleFlight cInit :=
  single_flight (defaultCfg true) attsC cInit
    (Reachable.init cInit ⟨rfl, rfl, rfl, by
      intro c st h
      by_cases hc : c = 0
      · subst hc
        refine ⟨"k", ?_⟩
        have h2 : some (CallerSt.pending "k") = some st := h
        injection h2 with h3
        exact h3.symm
      · exfalso
        have h2 : (none : Option CallerSt) = some st := by
          have : cInit.callers c = none := by simp [cInit, hc]
          rw [← this, h]
        simp at h2⟩)

/-- Witness for `roundtrip_spec`: the secondary-derived observation of
`om0` round-trips to itself except for the recomputed weather text. -/
theorem roundtrip_spec_witness :
    (normalizeOpenMeteo om0).atTime ≠ some "" ∧
    roundTrip (normalizeOpenMeteo om0) =
      { normalizeOpenMeteo om0 with
          uvHealthConcern := none
          weatherText := codeToText (normalizeOpenMeteo om0).weatherCode } :=
  ⟨by decide, roundtrip_spec (normalizeOpenMeteo om0) (by decide)⟩

end Weather
